import Mathlib

/-!
A shallow embedding of the OPL/OPL2 (YM3812) FM sound chip emulator core
(`Source/fmopl.c`, SIDKick-pico variant) together with proofs about its
register decoder, envelope generator, noise generator and sample loop.

Machine integers are modelled as `Nat`/`Int` with explicit `% 2^32` wraps
where the C code computes in `UINT32`.  The two floating-point-built lookup
tables (`sin_tab`, `tl_tab`) and the per-chip `fn_tab` are modelled as
opaque-value function parameters, since no property proved here depends on
their contents.  The `outputCh` debug taps and the (compiled-out) timer and
snapshot code are not modelled.
-/

/-- 32-bit wrap for unsigned C arithmetic. -/
def u32 (n : Nat) : Nat := n % 4294967296

/-- Reinterpret a (possibly negative) C `int` value as `UINT32`. -/
def u32i (x : Int) : Nat := (x % 4294967296).toNat

/-- Reinterpret the low 16 bits of an accumulator as a signed 16-bit sample
(the effect of storing an `int` into an `OPLSAMPLE` buffer entry).
Modelled from the spec: `OPLSAMPLE` is declared in the missing `fmopl.h`;
the spec fixes samples to be signed 16-bit. -/
def storeSample (x : Int) : Int :=
  let lo := u32i x % 65536
  if lo < 32768 then (lo : Int) else (lo : Int) - 65536

/-- `limit` from fmopl.c: clamp `val` into `[min, max]` (present in the
source but not called on the ym3812 output path). -/
def limit (val mx mn : Int) : Int :=
  if val > mx then mx else if val < mn then mn else val

/-! ## Constant tables (fmopl.c, verbatim integer contents) -/

/-- `slot_array`: register offset (low 5 bits) to emulator slot number. -/
def slot_array : List Int :=
  [0, 2, 4, 1, 3, 5] ++
    [-1, -1, 6, 8, 10, 7] ++
    [9, 11, -1, -1, 12, 14] ++
    [16, 13, 15, 17] ++
    List.replicate 10 (-1)

def slot_array_at (i : Nat) : Int := slot_array.getD i (-1)

/-- `ksl_tab` (128 entries): the float initializers `x / DV` with
`DV = 0.09375` are all exact; these are their integer values. -/
def ksl_tab : List Nat :=
  List.replicate 25 0 ++
    [8, 12, 16, 20, 24, 28] ++
    [32] ++
    List.replicate 5 0 ++
    [12, 20, 28, 32, 40, 44] ++
    [48, 52, 56, 60, 64] ++
    List.replicate 3 0 ++
    [20, 32, 44, 52, 60, 64] ++
    [72, 76, 80, 84, 88, 92] ++
    [96, 0, 0, 32, 52, 64] ++
    [76, 84, 92, 96, 104, 108] ++
    [112, 116, 120, 124, 128, 0] ++
    [32, 64, 84, 96, 108, 116] ++
    [124, 128, 136, 140, 144, 148] ++
    [152, 156, 160, 0, 64, 96] ++
    [116, 128, 140, 148, 156, 160] ++
    [168, 172, 176, 180, 184, 188] ++
    [192, 0, 96, 128, 148, 160] ++
    [172, 180, 188, 192, 200, 204] ++
    [208, 212, 216, 220, 224]

def ksl_tab_at (i : Nat) : Nat := ksl_tab.getD i 0

/-- `sl_tab`: sustain levels, `SC(db) = db * (1.0f / ENV_STEP) = db * 8`. -/
def sl_tab : List Nat :=
  [0, 8, 16, 24, 32, 40] ++
    [48, 56, 64, 72, 80, 88] ++
    [96, 104, 112, 248]

def sl_tab_at (i : Nat) : Nat := sl_tab.getD i 0

/-- `eg_inc`: envelope increment patterns, 15 rows of 8. -/
def eg_inc : List Nat :=
  [0, 1, 0, 1, 0, 1] ++
    [0, 1, 0, 1, 0] ++
    List.replicate 3 1 ++
    [0, 1, 0] ++
    List.replicate 3 1 ++
    [0] ++
    List.replicate 3 1 ++
    [0] ++
    List.replicate 18 1 ++
    [2] ++
    List.replicate 3 1 ++
    [2, 1, 2, 1, 2, 1] ++
    [2, 1, 2, 1] ++
    List.replicate 3 2 ++
    [1] ++
    List.replicate 14 2 ++
    [4] ++
    List.replicate 3 2 ++
    [4, 2, 4, 2, 4, 2] ++
    [4, 2, 4, 2] ++
    List.replicate 3 4 ++
    [2] ++
    List.replicate 11 4 ++
    List.replicate 8 8 ++
    List.replicate 8 0

def eg_inc_at (i : Nat) : Nat := eg_inc.getD i 0

/-- `eg_rate_select` (96 entries), values `O(a) = a * RATE_STEPS`. -/
def eg_rate_select : List Nat :=
  List.replicate 16 112 ++
    [0, 8, 16, 24, 0, 8] ++
    [16, 24, 0, 8, 16, 24] ++
    [0, 8, 16, 24, 0, 8] ++
    [16, 24, 0, 8, 16, 24] ++
    [0, 8, 16, 24, 0, 8] ++
    [16, 24, 0, 8, 16, 24] ++
    [0, 8, 16, 24, 0, 8] ++
    [16, 24, 0, 8, 16, 24] ++
    [0, 8, 16, 24, 32, 40] ++
    [48, 56, 64, 72, 80, 88] ++
    List.replicate 20 96

def eg_rate_select_at (i : Nat) : Nat := eg_rate_select.getD i 0

/-- `eg_rate_shift` (96 entries). -/
def eg_rate_shift : List Nat :=
  List.replicate 16 0 ++
    List.replicate 4 12 ++
    List.replicate 4 11 ++
    List.replicate 4 10 ++
    List.replicate 4 9 ++
    List.replicate 4 8 ++
    List.replicate 4 7 ++
    List.replicate 4 6 ++
    List.replicate 4 5 ++
    List.replicate 4 4 ++
    List.replicate 4 3 ++
    List.replicate 4 2 ++
    List.replicate 4 1 ++
    List.replicate 32 0

def eg_rate_shift_at (i : Nat) : Nat := eg_rate_shift.getD i 0

/-- `mul_tab8`: frequency multipliers (already doubled). -/
def mul_tab8 : List Nat :=
  [1, 2, 4, 6, 8, 10] ++
    [12, 14, 16, 18, 20, 20] ++
    [24, 24, 30, 30]

def mul_tab8_at (i : Nat) : Nat := mul_tab8.getD i 0

/-- `lfo_am_table` (210 entries, triangle). -/
def lfo_am_table : List Nat :=
  List.replicate 7 0 ++
    List.replicate 4 1 ++
    List.replicate 4 2 ++
    List.replicate 4 3 ++
    List.replicate 4 4 ++
    List.replicate 4 5 ++
    List.replicate 4 6 ++
    List.replicate 4 7 ++
    List.replicate 4 8 ++
    List.replicate 4 9 ++
    List.replicate 4 10 ++
    List.replicate 4 11 ++
    List.replicate 4 12 ++
    List.replicate 4 13 ++
    List.replicate 4 14 ++
    List.replicate 4 15 ++
    List.replicate 4 16 ++
    List.replicate 4 17 ++
    List.replicate 4 18 ++
    List.replicate 4 19 ++
    List.replicate 4 20 ++
    List.replicate 4 21 ++
    List.replicate 4 22 ++
    List.replicate 4 23 ++
    List.replicate 4 24 ++
    List.replicate 4 25 ++
    List.replicate 3 26 ++
    List.replicate 4 25 ++
    List.replicate 4 24 ++
    List.replicate 4 23 ++
    List.replicate 4 22 ++
    List.replicate 4 21 ++
    List.replicate 4 20 ++
    List.replicate 4 19 ++
    List.replicate 4 18 ++
    List.replicate 4 17 ++
    List.replicate 4 16 ++
    List.replicate 4 15 ++
    List.replicate 4 14 ++
    List.replicate 4 13 ++
    List.replicate 4 12 ++
    List.replicate 4 11 ++
    List.replicate 4 10 ++
    List.replicate 4 9 ++
    List.replicate 4 8 ++
    List.replicate 4 7 ++
    List.replicate 4 6 ++
    List.replicate 4 5 ++
    List.replicate 4 4 ++
    List.replicate 4 3 ++
    List.replicate 4 2 ++
    List.replicate 4 1

def lfo_am_table_at (i : Nat) : Nat := lfo_am_table.getD i 0

/-- `lfo_pm_table` (8 * 8 * 2 signed entries). -/
def lfo_pm_table : List Int :=
  List.replicate 24 0 ++
    [1] ++
    List.replicate 3 0 ++
    [-1] ++
    List.replicate 3 0 ++
    [1] ++
    List.replicate 3 0 ++
    [-1] ++
    List.replicate 3 0 ++
    [2, 1, 0, -1, -2, -1] ++
    [0, 1, 1] ++
    List.replicate 3 0 ++
    [-1] ++
    List.replicate 3 0 ++
    [3, 1, 0, -1, -3, -1] ++
    [0, 1, 2, 1, 0, -1] ++
    [-2, -1, 0, 1, 4, 2] ++
    [0, -2, -4, -2, 0] ++
    [2, 2, 1, 0, -1, -2] ++
    [-1, 0, 1, 5, 2, 0] ++
    [-2, -5, -2, 0, 2, 3] ++
    [1, 0, -1, -3, -1, 0] ++
    [1, 6, 3, 0, -3, -6] ++
    [-3, 0, 3, 3, 1, 0] ++
    [-1, -3, -1, 0, 1, 7] ++
    [3, 0, -3, -7, -3, 0] ++
    [3]

def lfo_pm_table_at (i : Nat) : Int := lfo_pm_table.getD i 0

/-! ## Named constants -/

def MAX_ATT_INDEX : Int := 511
def MIN_ATT_INDEX : Int := 0
def ENV_QUIET : Nat := 192   -- TL_TAB_LEN >> 4 = (12 * 256) >> 4
def TL_TAB_LEN : Nat := 3072
def SIN_MASK : Nat := 1023

def EG_ATT : Nat := 4
def EG_DEC : Nat := 3
def EG_SUS : Nat := 2
def EG_REL : Nat := 1
def EG_OFF : Nat := 0

def OPL_TYPE_WAVESEL : Nat := 1
def RATE_STEPS : Nat := 8

/-! ## Chip state -/

/-- One operator (`OPL_SLOT`).  `connect1` abstracts the output pointer:
`true` means `&output[0]`, `false` means `&phase_modulation`. -/
structure OPL_SLOT where
  ar : Nat
  dr : Nat
  rr : Nat
  KSR : Nat
  ksl : Nat
  ksr : Nat
  mul : Nat
  Cnt : Nat
  Incr : Nat
  FB : Nat
  connect1 : Bool
  op1_out0 : Int
  op1_out1 : Int
  CON : Nat
  eg_type : Nat
  state : Nat
  TL : Nat
  TLL : Nat
  volume : Int
  sl : Nat
  eg_sh_ar : Nat
  eg_sel_ar : Nat
  eg_sh_dr : Nat
  eg_sel_dr : Nat
  eg_sh_rr : Nat
  eg_sel_rr : Nat
  key : Nat
  AMmask : Nat
  vib : Nat
  wavetable : Nat
deriving DecidableEq, Repr

/-- One channel (`OPL_CH`). -/
structure OPL_CH where
  SLOT0 : OPL_SLOT
  SLOT1 : OPL_SLOT
  block_fnum : Nat
  fc : Nat
  ksl_base : Nat
  kcode : Nat
deriving DecidableEq, Repr

/-- The chip (`FM_OPL`).  `fn_tab` is the float-built frequency-increment
table, modelled as an opaque-value function. -/
structure FM_OPL where
  ch0 : OPL_CH
  ch1 : OPL_CH
  ch2 : OPL_CH
  ch3 : OPL_CH
  ch4 : OPL_CH
  ch5 : OPL_CH
  ch6 : OPL_CH
  ch7 : OPL_CH
  ch8 : OPL_CH
  type : Nat
  mode : Nat
  wavesel : Nat
  rhythm : Nat
  status : Nat
  statusmask : Nat
  eg_cnt : Nat
  eg_timer : Nat
  eg_timer_add : Nat
  eg_timer_overflow : Nat
  lfo_am_depth : Nat
  lfo_pm_depth_range : Nat
  lfo_am_cnt : Nat
  lfo_am_inc : Nat
  lfo_pm_cnt : Nat
  lfo_pm_inc : Nat
  noise_rng : Nat
  noise_p : Nat
  noise_f : Nat
  fn_tab : Nat → Nat

/-- Read channel `i` (`OPL->P_CH[i]`, always called with `i ≤ 8`). -/
def FM_OPL.getCh (c : FM_OPL) (i : Nat) : OPL_CH :=
  match i with
  | 0 => c.ch0 | 1 => c.ch1 | 2 => c.ch2 | 3 => c.ch3 | 4 => c.ch4
  | 5 => c.ch5 | 6 => c.ch6 | 7 => c.ch7 | _ => c.ch8

/-- Write channel `i`. -/
def FM_OPL.setCh (c : FM_OPL) (i : Nat) (ch : OPL_CH) : FM_OPL :=
  match i with
  | 0 => { c with ch0 := ch } | 1 => { c with ch1 := ch }
  | 2 => { c with ch2 := ch } | 3 => { c with ch3 := ch }
  | 4 => { c with ch4 := ch } | 5 => { c with ch5 := ch }
  | 6 => { c with ch6 := ch } | 7 => { c with ch7 := ch }
  | _ => { c with ch8 := ch }

/-- Read slot `j` of a channel (`CH->SLOT[j]`, `j` is `slot & 1`). -/
def OPL_CH.getSlot (ch : OPL_CH) (j : Nat) : OPL_SLOT :=
  match j with
  | 0 => ch.SLOT0 | _ => ch.SLOT1

/-- Write slot `j` of a channel. -/
def OPL_CH.setSlot (ch : OPL_CH) (j : Nat) (s : OPL_SLOT) : OPL_CH :=
  match j with
  | 0 => { ch with SLOT0 := s } | _ => { ch with SLOT1 := s }

/-! ## Register decode (fmopl.c lines 1211-1597) -/

/-- `FM_KEYON`: assert a key source bit. -/
def FM_KEYON (s : OPL_SLOT) (key_set : Nat) : OPL_SLOT :=
  if s.key = 0 then
    { s with Cnt := 0, state := EG_ATT, key := s.key ||| key_set }
  else
    { s with key := s.key ||| key_set }

/-- `FM_KEYOFF`: clear key source bits (`key_clr` is the `~bit` mask). -/
def FM_KEYOFF (s : OPL_SLOT) (key_clr : Nat) : OPL_SLOT :=
  if s.key ≠ 0 then
    let key' := s.key &&& key_clr
    if key' = 0 then
      if s.state > EG_REL then { s with key := key', state := EG_REL }
      else { s with key := key' }
    else { s with key := key' }
  else s

/-- `CALC_FCSLOT`: refresh phase increment and (if the key-scaled rate
changed) the envelope rate selectors of one slot. -/
def CALC_FCSLOT (ch : OPL_CH) (s : OPL_SLOT) : OPL_SLOT :=
  let s := { s with Incr := u32 (ch.fc * s.mul) }
  let ksr := ch.kcode >>> s.KSR
  if s.ksr ≠ ksr then
    let s := { s with ksr := ksr }
    let s :=
      if s.ar + ksr < 16 + 62 then
        { s with eg_sh_ar := eg_rate_shift_at (s.ar + ksr),
                 eg_sel_ar := eg_rate_select_at (s.ar + ksr) }
      else
        { s with eg_sh_ar := 0, eg_sel_ar := 13 * RATE_STEPS }
    { s with eg_sh_dr := eg_rate_shift_at (s.dr + ksr),
             eg_sel_dr := eg_rate_select_at (s.dr + ksr),
             eg_sh_rr := eg_rate_shift_at (s.rr + ksr),
             eg_sel_rr := eg_rate_select_at (s.rr + ksr) }
  else s

/-- `set_mul`: am/vib/eg-type/KSR/multiplier register (0x20 block). -/
def set_mul (c : FM_OPL) (slot v : Nat) : FM_OPL :=
  let i := slot / 2
  let j := slot &&& 1
  let ch := c.getCh i
  let s := ch.getSlot j
  let s := { s with
    mul := mul_tab8_at (v &&& 0x0f),
    KSR := if v &&& 0x10 ≠ 0 then 0 else 2,
    eg_type := v &&& 0x20,
    vib := v &&& 0x40,
    AMmask := if v &&& 0x80 ≠ 0 then 4294967295 else 0 }
  c.setCh i (ch.setSlot j (CALC_FCSLOT ch s))

/-- `set_ksl_tl`: key-scale-level / total-level register (0x40 block). -/
def set_ksl_tl (c : FM_OPL) (slot v : Nat) : FM_OPL :=
  let i := slot / 2
  let j := slot &&& 1
  let ch := c.getCh i
  let s := ch.getSlot j
  let ksl := v >>> 6
  let s := { s with
    ksl := if ksl ≠ 0 then 3 - ksl else 31,
    TL := (v &&& 0x3f) <<< 2 }
  let s := { s with TLL := s.TL + (ch.ksl_base >>> s.ksl) }
  c.setCh i (ch.setSlot j s)

/-- `set_ar_dr`: attack/decay rate register (0x60 block). -/
def set_ar_dr (c : FM_OPL) (slot v : Nat) : FM_OPL :=
  let i := slot / 2
  let j := slot &&& 1
  let ch := c.getCh i
  let s := ch.getSlot j
  let s := { s with ar := if v >>> 4 ≠ 0 then 16 + ((v >>> 4) <<< 2) else 0 }
  let s :=
    if s.ar + s.ksr < 16 + 62 then
      { s with eg_sh_ar := eg_rate_shift_at (s.ar + s.ksr),
               eg_sel_ar := eg_rate_select_at (s.ar + s.ksr) }
    else
      { s with eg_sh_ar := 0, eg_sel_ar := 13 * RATE_STEPS }
  let s := { s with dr := if v &&& 0x0f ≠ 0 then 16 + ((v &&& 0x0f) <<< 2) else 0 }
  let s := { s with eg_sh_dr := eg_rate_shift_at (s.dr + s.ksr),
                    eg_sel_dr := eg_rate_select_at (s.dr + s.ksr) }
  c.setCh i (ch.setSlot j s)

/-- `set_sl_rr`: sustain-level / release-rate register (0x80 block). -/
def set_sl_rr (c : FM_OPL) (slot v : Nat) : FM_OPL :=
  let i := slot / 2
  let j := slot &&& 1
  let ch := c.getCh i
  let s := ch.getSlot j
  let s := { s with sl := sl_tab_at (v >>> 4) <<< 1 }
  let s := { s with rr := if v &&& 0x0f ≠ 0 then 16 + ((v &&& 0x0f) <<< 2) else 0 }
  let s := { s with eg_sh_rr := eg_rate_shift_at (s.rr + s.ksr),
                    eg_sel_rr := eg_rate_select_at (s.rr + s.ksr) }
  c.setCh i (ch.setSlot j s)

/-- The `0xbd` register: AM/PM depth and the rhythm section keys. -/
def writeRhythm (c : FM_OPL) (v : Nat) : FM_OPL :=
  let c := { c with
    lfo_am_depth := v &&& 0x80,
    lfo_pm_depth_range := if v &&& 0x40 ≠ 0 then 8 else 0,
    rhythm := v &&& 0x3f }
  if c.rhythm &&& 0x20 ≠ 0 then
    let ch6 := c.getCh 6
    let ch6 := if v &&& 0x10 ≠ 0 then
        (ch6.setSlot 0 (FM_KEYON (ch6.getSlot 0) 2)).setSlot 1
          (FM_KEYON ((ch6.setSlot 0 (FM_KEYON (ch6.getSlot 0) 2)).getSlot 1) 2)
      else
        (ch6.setSlot 0 (FM_KEYOFF (ch6.getSlot 0) (u32i (-3)))).setSlot 1
          (FM_KEYOFF ((ch6.setSlot 0 (FM_KEYOFF (ch6.getSlot 0) (u32i (-3)))).getSlot 1) (u32i (-3)))
    let c := c.setCh 6 ch6
    let ch7 := c.getCh 7
    let ch7 := ch7.setSlot 0 (if v &&& 0x01 ≠ 0 then FM_KEYON (ch7.getSlot 0) 2
                              else FM_KEYOFF (ch7.getSlot 0) (u32i (-3)))
    let ch7 := ch7.setSlot 1 (if v &&& 0x08 ≠ 0 then FM_KEYON (ch7.getSlot 1) 2
                              else FM_KEYOFF (ch7.getSlot 1) (u32i (-3)))
    let c := c.setCh 7 ch7
    let ch8 := c.getCh 8
    let ch8 := ch8.setSlot 0 (if v &&& 0x04 ≠ 0 then FM_KEYON (ch8.getSlot 0) 2
                              else FM_KEYOFF (ch8.getSlot 0) (u32i (-3)))
    let ch8 := ch8.setSlot 1 (if v &&& 0x02 ≠ 0 then FM_KEYON (ch8.getSlot 1) 2
                              else FM_KEYOFF (ch8.getSlot 1) (u32i (-3)))
    c.setCh 8 ch8
  else
    let ch6 := c.getCh 6
    let ch6 := ch6.setSlot 0 (FM_KEYOFF (ch6.getSlot 0) (u32i (-3)))
    let ch6 := ch6.setSlot 1 (FM_KEYOFF (ch6.getSlot 1) (u32i (-3)))
    let c := c.setCh 6 ch6
    let ch7 := c.getCh 7
    let ch7 := ch7.setSlot 0 (FM_KEYOFF (ch7.getSlot 0) (u32i (-3)))
    let ch7 := ch7.setSlot 1 (FM_KEYOFF (ch7.getSlot 1) (u32i (-3)))
    let c := c.setCh 7 ch7
    let ch8 := c.getCh 8
    let ch8 := ch8.setSlot 0 (FM_KEYOFF (ch8.getSlot 0) (u32i (-3)))
    let ch8 := ch8.setSlot 1 (FM_KEYOFF (ch8.getSlot 1) (u32i (-3)))
    c.setCh 8 ch8

/-- The `0xa0`-`0xb8` registers: fnum low byte / key-on + block + fnum high. -/
def writeFnum (c : FM_OPL) (r v : Nat) : FM_OPL :=
  if r &&& 0x0f > 8 then c
  else
    let i := r &&& 0x0f
    let ch := c.getCh i
    let bf :=
      if r &&& 0x10 = 0 then (ch.block_fnum &&& 0x1f00) ||| v
      else ((v &&& 0x1f) <<< 8) ||| (ch.block_fnum &&& 0xff)
    let ch :=
      if r &&& 0x10 = 0 then ch
      else if v &&& 0x20 ≠ 0 then
        (ch.setSlot 0 (FM_KEYON (ch.getSlot 0) 1)).setSlot 1
          (FM_KEYON ((ch.setSlot 0 (FM_KEYON (ch.getSlot 0) 1)).getSlot 1) 1)
      else
        (ch.setSlot 0 (FM_KEYOFF (ch.getSlot 0) (u32i (-2)))).setSlot 1
          (FM_KEYOFF ((ch.setSlot 0 (FM_KEYOFF (ch.getSlot 0) (u32i (-2)))).getSlot 1) (u32i (-2)))
    let ch :=
      if ch.block_fnum ≠ bf then
        let block := bf >>> 10
        let ch := { ch with
          block_fnum := bf,
          ksl_base := ksl_tab_at (bf >>> 6),
          fc := c.fn_tab (bf &&& 0x03ff) >>> (7 - block) }
        let kcode := (ch.block_fnum &&& 0x1c00) >>> 9
        let ch := { ch with kcode :=
          if c.mode &&& 0x40 ≠ 0 then kcode ||| ((ch.block_fnum &&& 0x100) >>> 8)
          else kcode ||| ((ch.block_fnum &&& 0x200) >>> 9) }
        let ch := ch.setSlot 0
          { ch.getSlot 0 with TLL := (ch.getSlot 0).TL + (ch.ksl_base >>> (ch.getSlot 0).ksl) }
        let ch := ch.setSlot 1
          { ch.getSlot 1 with TLL := (ch.getSlot 1).TL + (ch.ksl_base >>> (ch.getSlot 1).ksl) }
        let ch := ch.setSlot 0 (CALC_FCSLOT ch (ch.getSlot 0))
        ch.setSlot 1 (CALC_FCSLOT ch (ch.getSlot 1))
      else ch
    c.setCh i ch

/-- The `0x00`-`0x1f` control block (wave-select enable, mode register). -/
def writeControl (c : FM_OPL) (r v : Nat) : FM_OPL :=
  if r &&& 0x1f = 0x01 then
    if c.type &&& OPL_TYPE_WAVESEL ≠ 0 then { c with wavesel := v &&& 0x20 } else c
  else if r &&& 0x1f = 0x08 then { c with mode := v }
  else c

/-- The `0xc0` block: feedback and connection bits of one channel. -/
def writeFeedbackCon (c : FM_OPL) (r v : Nat) : FM_OPL :=
  if r &&& 0x0f > 8 then c
  else
    let i := r &&& 0x0f
    let ch := c.getCh i
    let s := ch.getSlot 0
    let s := { s with
      FB := if (v >>> 1) &&& 7 ≠ 0 then ((v >>> 1) &&& 7) + 7 else 0,
      CON := v &&& 1,
      connect1 := v &&& 1 ≠ 0 }
    c.setCh i (ch.setSlot 0 s)

/-- The `0xe0` block: waveform select (gated by `wavesel`). -/
def writeWaveformSel (c : FM_OPL) (r v : Nat) : FM_OPL :=
  if c.wavesel ≠ 0 then
    let s := slot_array_at (r &&& 0x1f)
    if s < 0 then c
    else
      let i := s.toNat / 2
      let ch := c.getCh i
      c.setCh i (ch.setSlot (s.toNat &&& 1)
        { ch.getSlot (s.toNat &&& 1) with wavetable := v &&& 0x03 })
  else c

/-- `OPLWriteReg`: decode one (register, value) write. -/
def OPLWriteReg (c : FM_OPL) (r₀ v₀ : Nat) : FM_OPL :=
  let r := r₀ &&& 0xff
  let v := v₀ &&& 0xff
  if r &&& 0xe0 = 0x00 then writeControl c r v
  else if r &&& 0xe0 = 0x20 then
    let s := slot_array_at (r &&& 0x1f)
    if s < 0 then c else set_mul c s.toNat v
  else if r &&& 0xe0 = 0x40 then
    let s := slot_array_at (r &&& 0x1f)
    if s < 0 then c else set_ksl_tl c s.toNat v
  else if r &&& 0xe0 = 0x60 then
    let s := slot_array_at (r &&& 0x1f)
    if s < 0 then c else set_ar_dr c s.toNat v
  else if r &&& 0xe0 = 0x80 then
    let s := slot_array_at (r &&& 0x1f)
    if s < 0 then c else set_sl_rr c s.toNat v
  else if r &&& 0xe0 = 0xa0 then
    if r = 0xbd then writeRhythm c v else writeFnum c r v
  else if r &&& 0xe0 = 0xc0 then writeFeedbackCon c r v
  else writeWaveformSel c r v

/-! ## Per-sample clocks (fmopl.c `advance_lfo`, `advance`) -/

/-- Map a function over both slots of a channel. -/
def OPL_CH.mapSlots (ch : OPL_CH) (f : OPL_SLOT → OPL_SLOT) : OPL_CH :=
  { ch with SLOT0 := f ch.SLOT0, SLOT1 := f ch.SLOT1 }

/-- Map a function over all nine channels. -/
def FM_OPL.mapChs (c : FM_OPL) (f : OPL_CH → OPL_CH) : FM_OPL :=
  { c with ch0 := f c.ch0, ch1 := f c.ch1, ch2 := f c.ch2, ch3 := f c.ch3,
           ch4 := f c.ch4, ch5 := f c.ch5, ch6 := f c.ch6, ch7 := f c.ch7,
           ch8 := f c.ch8 }

/-- One firing of the envelope generator state machine for one operator,
at (already incremented) envelope counter value `cnt`
(fmopl.c lines 601-653). -/
def egFire (cnt : Nat) (op : OPL_SLOT) : OPL_SLOT :=
  match op.state with
  | 4 => -- EG_ATT
    if cnt &&& ((1 <<< op.eg_sh_ar) - 1) = 0 then
      let inc := eg_inc_at (op.eg_sel_ar + ((cnt >>> op.eg_sh_ar) &&& 7))
      let vol := op.volume + Int.fdiv ((-op.volume - 1) * inc) 8
      if vol ≤ MIN_ATT_INDEX then
        { op with volume := MIN_ATT_INDEX, state := EG_DEC }
      else
        { op with volume := vol }
    else op
  | 3 => -- EG_DEC
    if cnt &&& ((1 <<< op.eg_sh_dr) - 1) = 0 then
      let vol := op.volume + (eg_inc_at (op.eg_sel_dr + ((cnt >>> op.eg_sh_dr) &&& 7)) : Int)
      if u32i vol ≥ op.sl then { op with volume := vol, state := EG_SUS }
      else { op with volume := vol }
    else op
  | 2 => -- EG_SUS
    if op.eg_type ≠ 0 then op  -- non-percussive: hold
    else
      if cnt &&& ((1 <<< op.eg_sh_rr) - 1) = 0 then
        let vol := op.volume + (eg_inc_at (op.eg_sel_rr + ((cnt >>> op.eg_sh_rr) &&& 7)) : Int)
        if vol ≥ MAX_ATT_INDEX then { op with volume := MAX_ATT_INDEX }
        else { op with volume := vol }
      else op
  | 1 => -- EG_REL
    if cnt &&& ((1 <<< op.eg_sh_rr) - 1) = 0 then
      let vol := op.volume + (eg_inc_at (op.eg_sel_rr + ((cnt >>> op.eg_sh_rr) &&& 7)) : Int)
      if vol ≥ MAX_ATT_INDEX then { op with volume := MAX_ATT_INDEX, state := EG_OFF }
      else { op with volume := vol }
    else op
  | _ => op

/-- Run `k` iterations of the envelope while-loop body: increment the
shared envelope counter, fire every operator. -/
def egRun : Nat → FM_OPL → FM_OPL
  | 0, c => c
  | k + 1, c =>
    let c := { c with eg_cnt := u32 (c.eg_cnt + 1) }
    let c := c.mapChs (fun ch => ch.mapSlots (egFire c.eg_cnt))
    egRun k c

/-- Phase generator step for one operator (fmopl.c lines 661-686). -/
def phaseStep (fn_tab : Nat → Nat) (lfoPM : Nat) (ch_block_fnum : Nat)
    (op : OPL_SLOT) : OPL_SLOT :=
  if op.vib ≠ 0 then
    let fnum_lfo := (ch_block_fnum &&& 0x0380) >>> 7
    let off := lfo_pm_table_at (lfoPM + 16 * fnum_lfo)
    if off ≠ 0 then
      let bf := u32i ((ch_block_fnum : Int) + off)
      let block := (bf &&& 0x1c00) >>> 10
      { op with Cnt := u32 (op.Cnt + (fn_tab (bf &&& 0x03ff) >>> (7 - block)) * op.mul) }
    else
      { op with Cnt := u32 (op.Cnt + op.Incr) }
  else
    { op with Cnt := u32 (op.Cnt + op.Incr) }

/-- One step of the 23-bit noise LFSR (fmopl.c lines 711-714). -/
def noiseStep (rng : Nat) : Nat :=
  (if rng &&& 1 ≠ 0 then rng ^^^ 0x800302 else rng) >>> 1

/-- `advance`: envelope clock, phase generators and noise generator,
one sample tick.  `lfoPM` is the global `LFO_PM` set by `advance_lfo`. -/
def advance (lfoPM : Nat) (c : FM_OPL) : FM_OPL :=
  let t := u32 (c.eg_timer + c.eg_timer_add)
  let k := if c.eg_timer_overflow = 0 then 0 else t / c.eg_timer_overflow
  let c := egRun k { c with eg_timer := t - k * c.eg_timer_overflow }
  let c := c.mapChs (fun ch => ch.mapSlots (phaseStep c.fn_tab lfoPM ch.block_fnum))
  let p := u32 (c.noise_p + c.noise_f)
  { c with noise_p := p &&& 0xffff,
           noise_rng := noiseStep^[p >>> 16] c.noise_rng }

/-- `advance_lfo`: returns the chip with advanced LFO counters plus the
global `LFO_AM` and `LFO_PM` values for this sample. -/
def advance_lfo (c : FM_OPL) : FM_OPL × Nat × Nat :=
  let amcnt := u32 (c.lfo_am_cnt + c.lfo_am_inc)
  let amcnt := if amcnt ≥ 210 <<< 24 then amcnt - 210 <<< 24 else amcnt
  let tmp := lfo_am_table_at (amcnt >>> 24)
  let lfoAM := if c.lfo_am_depth ≠ 0 then tmp else tmp >>> 2
  let pmcnt := u32 (c.lfo_pm_cnt + c.lfo_pm_inc)
  let lfoPM := ((pmcnt >>> 24) &&& 7) ||| c.lfo_pm_depth_range
  ({ c with lfo_am_cnt := amcnt, lfo_pm_cnt := pmcnt }, lfoAM, lfoPM)

/-! ## Operator output (fmopl.c `op_calc`, `op_calc1`, `OPL_CALC_CH`,
`OPL_CALC_RH`) -/

/-- The float-built lookup tables (`sin_tab`, `tl_tab`), passed as
parameters; no property proved here depends on their contents. -/
structure WaveTables where
  sin_tab : Nat → Nat
  tl_tab : Nat → Nat

/-- Common tail of `op_calc`/`op_calc1`: attenuation-to-linear conversion
with on-the-fly sign and octave shift. -/
def op_calc_output (T : WaveTables) (pwave env : Nat) : Int :=
  let p := pwave + (env <<< 4)
  if p ≥ TL_TAB_LEN then 0
  else
    let sign := p &&& 1
    let p := p >>> 1
    let s := p >>> 8
    let v : Int := (T.tl_tab (p &&& 255) : Int) >>> (s : Nat)
    if sign ≠ 0 then -v else v

/-- `op_calc`: operator output, phase-modulation input scaled by `2^16`. -/
def op_calc (T : WaveTables) (phase : Nat) (env : Nat) (pm : Int)
    (wave_tab : Nat) : Int :=
  let i := (u32i (((phase &&& 0xffff0000 : Nat) : Int) + pm * 65536) >>> 16) &&& SIN_MASK
  match wave_tab with
  | 1 => if i &&& (1 <<< 9) ≠ 0 then 0 else op_calc_output T (T.sin_tab i) env
  | 2 => op_calc_output T (T.sin_tab (i &&& (SIN_MASK >>> 1))) env
  | 3 => if i &&& (1 <<< 8) ≠ 0 then 0
         else op_calc_output T (T.sin_tab (i &&& (SIN_MASK >>> 2))) env
  | _ => op_calc_output T (T.sin_tab i) env

/-- `op_calc1`: as `op_calc` but the (feedback) modulation input is already
in 16.16 fixed point. -/
def op_calc1 (T : WaveTables) (phase : Nat) (env : Nat) (pm : Int)
    (wave_tab : Nat) : Int :=
  let i := (u32i (((phase &&& 0xffff0000 : Nat) : Int) + pm) >>> 16) &&& SIN_MASK
  match wave_tab with
  | 1 => if i &&& (1 <<< 9) ≠ 0 then 0 else op_calc_output T (T.sin_tab i) env
  | 2 => op_calc_output T (T.sin_tab (i &&& (SIN_MASK >>> 1))) env
  | 3 => if i &&& (1 <<< 8) ≠ 0 then 0
         else op_calc_output T (T.sin_tab (i &&& (SIN_MASK >>> 2))) env
  | _ => op_calc_output T (T.sin_tab i) env

/-- `volume_calc(OP)`: the operator's instantaneous attenuation. -/
def volume_calc (lfoAM : Nat) (s : OPL_SLOT) : Nat :=
  u32 (s.TLL + u32i s.volume + (lfoAM &&& s.AMmask))

/-- `OPL_CALC_CH`: synthesize one melodic channel.  Returns the updated
channel (operator 1 feedback history advanced) and the value added to the
shared `output[0]` accumulator this sample. -/
def OPL_CALC_CH (T : WaveTables) (lfoAM : Nat) (ch : OPL_CH) : OPL_CH × Int :=
  let s1 := ch.SLOT0
  let env := volume_calc lfoAM s1
  let out := s1.op1_out0 + s1.op1_out1
  let s1 := { s1 with op1_out0 := s1.op1_out1 }
  let pmAdd : Int := if s1.connect1 then 0 else s1.op1_out0
  let outAdd : Int := if s1.connect1 then s1.op1_out0 else 0
  let fbIn : Int := (if s1.FB = 0 then 0 else out) * ((1 <<< s1.FB : Nat) : Int)
  let newOut1 : Int :=
    if env < ENV_QUIET then op_calc1 T s1.Cnt env fbIn s1.wavetable else 0
  let s1 := { s1 with op1_out1 := newOut1 }
  let s2 := ch.SLOT1
  let env2 := volume_calc lfoAM s2
  let chOut : Int :=
    if env2 < ENV_QUIET then op_calc T s2.Cnt env2 pmAdd s2.wavetable else 0
  ({ ch with SLOT0 := s1 }, outAdd + chOut)

/-- `OPL_CALC_RH`: synthesize the five rhythm voices from channels 6-8 and
the noise bit.  Returns the updated channel 6 (bass drum feedback history)
and the value added to `output[0]`. -/
def OPL_CALC_RH (T : WaveTables) (lfoAM : Nat) (ch6 ch7 ch8 : OPL_CH)
    (noise : Nat) : OPL_CH × Int :=
  -- Bass drum
  let s1 := ch6.SLOT0
  let env := volume_calc lfoAM s1
  let out := s1.op1_out0 + s1.op1_out1
  let s1 := { s1 with op1_out0 := s1.op1_out1 }
  let pm : Int := if s1.CON = 0 then s1.op1_out0 else 0
  let fbIn : Int := (if s1.FB = 0 then 0 else out) * ((1 <<< s1.FB : Nat) : Int)
  let newOut1 : Int :=
    if env < ENV_QUIET then op_calc1 T s1.Cnt env fbIn s1.wavetable else 0
  let s1 := { s1 with op1_out1 := newOut1 }
  let s2 := ch6.SLOT1
  let env2 := volume_calc lfoAM s2
  let bdOut : Int :=
    if env2 < ENV_QUIET then op_calc T s2.Cnt env2 pm s2.wavetable * 2 else 0
  let s71 := ch7.SLOT0
  let s72 := ch7.SLOT1
  let s81 := ch8.SLOT0
  let s82 := ch8.SLOT1
  -- High hat
  let envHH := volume_calc lfoAM s71
  let hhOut : Int :=
    if envHH < ENV_QUIET then
      let bit7 := ((s71.Cnt >>> 16) >>> 7) &&& 1
      let bit3 := ((s71.Cnt >>> 16) >>> 3) &&& 1
      let bit2 := ((s71.Cnt >>> 16) >>> 2) &&& 1
      let res1 := (bit2 ^^^ bit7) ||| bit3
      let phase := if res1 ≠ 0 then (0x200 ||| (0xd0 >>> 2)) else 0xd0
      let bit5e := ((s82.Cnt >>> 16) >>> 5) &&& 1
      let bit3e := ((s82.Cnt >>> 16) >>> 3) &&& 1
      let res2 := bit3e ^^^ bit5e
      let phase := if res2 ≠ 0 then (0x200 ||| (0xd0 >>> 2)) else phase
      let phase :=
        if phase &&& 0x200 ≠ 0 then (if noise ≠ 0 then 0x200 ||| 0xd0 else phase)
        else (if noise ≠ 0 then 0xd0 >>> 2 else phase)
      op_calc T (phase <<< 16) envHH 0 s71.wavetable * 2
    else 0
  -- Snare drum
  let envSD := volume_calc lfoAM s72
  let sdOut : Int :=
    if envSD < ENV_QUIET then
      let bit8 := ((s71.Cnt >>> 16) >>> 8) &&& 1
      let phase := if bit8 ≠ 0 then 0x200 else 0x100
      let phase := if noise ≠ 0 then phase ^^^ 0x100 else phase
      op_calc T (phase <<< 16) envSD 0 s72.wavetable * 2
    else 0
  -- Tom tom
  let envTOM := volume_calc lfoAM s81
  let tomOut : Int :=
    if envTOM < ENV_QUIET then op_calc T s81.Cnt envTOM 0 s81.wavetable * 2 else 0
  -- Top cymbal
  let envTOP := volume_calc lfoAM s82
  let topOut : Int :=
    if envTOP < ENV_QUIET then
      let bit7 := ((s71.Cnt >>> 16) >>> 7) &&& 1
      let bit3 := ((s71.Cnt >>> 16) >>> 3) &&& 1
      let bit2 := ((s71.Cnt >>> 16) >>> 2) &&& 1
      let res1 := (bit2 ^^^ bit7) ||| bit3
      let phase := if res1 ≠ 0 then 0x300 else 0x100
      let bit5e := ((s82.Cnt >>> 16) >>> 5) &&& 1
      let bit3e := ((s82.Cnt >>> 16) >>> 3) &&& 1
      let res2 := bit3e ^^^ bit5e
      let phase := if res2 ≠ 0 then 0x300 else phase
      op_calc T (phase <<< 16) envTOP 0 s82.wavetable * 2
    else 0
  ({ ch6 with SLOT0 := s1 }, bdOut + hhOut + sdOut + tomOut + topOut)

/-! ## Sample loop (fmopl.c `ym3812_update_one`) -/

/-- One iteration of the sample loop: advance the LFO, synthesize the nine
channels (or six plus the rhythm mixer, according to `rhythm`), advance all
clocks.  Returns the new chip state and the raw accumulator value `lt`. -/
def stepSample (T : WaveTables) (rhythm : Bool) (c : FM_OPL) : FM_OPL × Int :=
  let (c, lfoAM, lfoPM) := advance_lfo c
  let (ch0, d0) := OPL_CALC_CH T lfoAM c.ch0
  let (ch1, d1) := OPL_CALC_CH T lfoAM c.ch1
  let (ch2, d2) := OPL_CALC_CH T lfoAM c.ch2
  let (ch3, d3) := OPL_CALC_CH T lfoAM c.ch3
  let (ch4, d4) := OPL_CALC_CH T lfoAM c.ch4
  let (ch5, d5) := OPL_CALC_CH T lfoAM c.ch5
  let c := { c with ch0 := ch0, ch1 := ch1, ch2 := ch2, ch3 := ch3,
                    ch4 := ch4, ch5 := ch5 }
  let (c, lt) :=
    if rhythm then
      let (ch6, dr) := OPL_CALC_RH T lfoAM c.ch6 c.ch7 c.ch8 (c.noise_rng &&& 1)
      ({ c with ch6 := ch6 }, d0 + d1 + d2 + d3 + d4 + d5 + dr)
    else
      let (ch6, d6) := OPL_CALC_CH T lfoAM c.ch6
      let (ch7, d7) := OPL_CALC_CH T lfoAM c.ch7
      let (ch8, d8) := OPL_CALC_CH T lfoAM c.ch8
      ({ c with ch6 := ch6, ch7 := ch7, ch8 := ch8 },
       d0 + d1 + d2 + d3 + d4 + d5 + d6 + d7 + d8)
  (advance lfoPM c, lt)

/-- The sample loop body of `ym3812_update_one`, with the rhythm flag
latched before the loop (as in the source). -/
def updLoop (T : WaveTables) (rh : Bool) : Nat → FM_OPL → FM_OPL × List Int
  | 0, c => (c, [])
  | n + 1, c =>
    let (c1, lt) := stepSample T rh c
    let (c2, rest) := updLoop T rh n c1
    (c2, storeSample lt :: rest)

/-- `ym3812_update_one`: generate `length` samples.  The rhythm flag is
read once, before the loop. -/
def ym3812_update_one (T : WaveTables) (c : FM_OPL) (length : Nat) :
    FM_OPL × List Int :=
  updLoop T (c.rhythm &&& 0x20 ≠ 0) length c

/-- Modelled from the spec: the sample loop as §4.7 words it, with the
channel-to-rhythm switch re-evaluated every sample from the live
rhythm-enable flag.  Used as the refinement target for `ym3812_update_one`. -/
def updateLive (T : WaveTables) : Nat → FM_OPL → FM_OPL × List Int
  | 0, c => (c, [])
  | n + 1, c =>
    let (c1, lt) := stepSample T (c.rhythm &&& 0x20 ≠ 0) c
    let (c2, rest) := updateLive T n c1
    (c2, storeSample lt :: rest)

/-- The sample loop without the 16-bit store: the raw accumulator values. -/
def updRawLoop (T : WaveTables) (rh : Bool) : Nat → FM_OPL → List Int
  | 0, _ => []
  | n + 1, c =>
    let (c1, lt) := stepSample T rh c
    lt :: updRawLoop T rh n c1

/-! ## Reset (fmopl.c `OPLResetChip`) -/

/-- `OPL_STATUS_RESET` (8-bit status register). -/
def OPL_STATUS_RESET (c : FM_OPL) (flag : Nat) : FM_OPL :=
  let st := c.status &&& (255 ^^^ (flag &&& 255))
  if st &&& 0x80 ≠ 0 then
    if st &&& c.statusmask = 0 then { c with status := st &&& 0x7f }
    else { c with status := st }
  else { c with status := st }

/-- The register-clear loop of `OPLResetChip`: `0xff` down to `0x20`. -/
def resetRegs : List Nat := (List.range 224).map (fun k => 255 - k)

/-- The final per-operator loop of `OPLResetChip`. -/
def resetSlots (c : FM_OPL) : FM_OPL :=
  c.mapChs (fun ch => ch.mapSlots (fun s =>
    { s with wavetable := 0, state := EG_OFF, volume := MAX_ATT_INDEX,
             connect1 := true }))

/-- `OPLResetChip`. -/
def OPLResetChip (c : FM_OPL) : FM_OPL :=
  let c := { c with eg_timer := 0, eg_cnt := 0, noise_rng := 1, mode := 0 }
  let c := OPL_STATUS_RESET c 0x7f
  let c := OPLWriteReg c 0x01 0
  let c := OPLWriteReg c 0x02 0
  let c := OPLWriteReg c 0x03 0
  let c := OPLWriteReg c 0x04 0
  let c := resetRegs.foldl (fun ch r => OPLWriteReg ch r 0) c
  resetSlots c

/-! ## Concrete values used to instantiate theorems -/

/-- An all-zero operator. -/
def slotZ : OPL_SLOT :=
  { ar := 0, dr := 0, rr := 0, KSR := 0, ksl := 0, ksr := 0, mul := 0,
    Cnt := 0, Incr := 0, FB := 0, connect1 := false, op1_out0 := 0,
    op1_out1 := 0, CON := 0, eg_type := 0, state := 0, TL := 0, TLL := 0,
    volume := 0, sl := 0, eg_sh_ar := 0, eg_sel_ar := 0, eg_sh_dr := 0,
    eg_sel_dr := 0, eg_sh_rr := 0, eg_sel_rr := 0, key := 0, AMmask := 0,
    vib := 0, wavetable := 0 }

/-- An all-zero channel. -/
def chZ : OPL_CH :=
  { SLOT0 := slotZ, SLOT1 := slotZ, block_fnum := 0, fc := 0, ksl_base := 0,
    kcode := 0 }

/-- A freshly zeroed YM3812 chip (as `OPLCreate` leaves it after `memset`,
with the float-built `fn_tab` abstracted to zero). -/
def chip0 : FM_OPL :=
  { ch0 := chZ, ch1 := chZ, ch2 := chZ, ch3 := chZ, ch4 := chZ, ch5 := chZ,
    ch6 := chZ, ch7 := chZ, ch8 := chZ, type := OPL_TYPE_WAVESEL, mode := 0,
    wavesel := 0, rhythm := 0, status := 0, statusmask := 0, eg_cnt := 0,
    eg_timer := 0, eg_timer_add := 0, eg_timer_overflow := 65536,
    lfo_am_depth := 0, lfo_pm_depth_range := 0, lfo_am_cnt := 0,
    lfo_am_inc := 0, lfo_pm_cnt := 0, lfo_pm_inc := 0, noise_rng := 0,
    noise_p := 0, noise_f := 0, fn_tab := fun _ => 0 }

/-- Trivial wave tables (both constant zero). -/
def T0 : WaveTables := { sin_tab := fun _ => 0, tl_tab := fun _ => 0 }

/-! ## Predicates used in the statements -/

/-- Fields of the chip that `OPLWriteReg` never writes (status, clocks,
noise generator, frequency table). -/
def FM_OPL.clocksEq (a b : FM_OPL) : Prop :=
  a.status = b.status ∧ a.statusmask = b.statusmask ∧ a.type = b.type ∧
  a.eg_cnt = b.eg_cnt ∧ a.eg_timer = b.eg_timer ∧
  a.eg_timer_add = b.eg_timer_add ∧ a.eg_timer_overflow = b.eg_timer_overflow ∧
  a.lfo_am_cnt = b.lfo_am_cnt ∧ a.lfo_am_inc = b.lfo_am_inc ∧
  a.lfo_pm_cnt = b.lfo_pm_cnt ∧ a.lfo_pm_inc = b.lfo_pm_inc ∧
  a.noise_rng = b.noise_rng ∧ a.noise_p = b.noise_p ∧ a.noise_f = b.noise_f ∧
  a.fn_tab = b.fn_tab

/-- Envelope well-formedness of one operator: the attenuation is in
`[0, 511]`, in DECAY it is below every reachable sustain level plus one
increment, and the sustain level is one of the `sl_tab << 1` values
(hence at most `496`).  Every state reachable from reset satisfies this. -/
def SlotEGInv (s : OPL_SLOT) : Prop :=
  0 ≤ s.volume ∧ s.volume ≤ 511 ∧ (s.state = EG_DEC → s.volume ≤ 495) ∧
  s.sl ≤ 496

/-- Envelope well-formedness of all 18 operators of a chip. -/
def ChipEGInv (c : FM_OPL) : Prop :=
  ∀ i ≤ 8, ∀ j ≤ 1, SlotEGInv ((c.getCh i).getSlot j)

/-- All channels' key-scale-level bases are table values (at most 224);
holds for every chip reachable from `OPLCreate` and is preserved by every
register write. -/
def KB (c : FM_OPL) : Prop := ∀ i ≤ 8, (c.getCh i).ksl_base ≤ 224

/-- The concrete chip exhibiting the stale-feedback leak: channel 0's
operator 1 still holds a nonzero previous output sample. -/
def cBad : FM_OPL :=
  { chip0 with ch0 := { chZ with SLOT0 := { slotZ with op1_out1 := 100 } } }

/-- A concrete channel whose operators are both at or above the quiet
threshold while operator 1 still holds nonzero feedback history routed to
the output accumulator. -/
def chQuiet : OPL_CH :=
  let s0 := { slotZ with TLL := 300, connect1 := true, op1_out1 := 7 }
  let s1 := { slotZ with TLL := 300 }
  { chZ with SLOT0 := s0, SLOT1 := s1 }

/-- One operator that can no longer produce output: envelope OFF at
maximum attenuation, total level at most 1, feedback history empty. -/
def SilentSlot (s : OPL_SLOT) : Prop :=
  s.state = EG_OFF ∧ s.volume = MAX_ATT_INDEX ∧ s.TLL ≤ 1 ∧
  s.op1_out0 = 0 ∧ s.op1_out1 = 0

/-- A chip that generates only zero samples: rhythm mode off and all 18
operators silent. -/
def Silent (c : FM_OPL) : Prop :=
  c.rhythm &&& 0x20 = 0 ∧
  ∀ i, i ≤ 8 → ∀ j, j ≤ 1 → SilentSlot ((c.getCh i).getSlot j)

/-- All channels' `ksl_base` values fit in 32 bits (`ksl_base` is a
`UINT32` in the source). -/
def KB32 (c : FM_OPL) : Prop :=
  ∀ i, i ≤ 8 → (c.getCh i).ksl_base < 4294967296

/-- The registers cleared before `0xbd`: `0xff` down to `0xbe`. -/
def resetRegsB1 : List Nat := (List.range 66).map (fun k => 255 - k)

/-- The registers cleared after `0xbd`: `0xbc` down to `0x20`. -/
def resetRegsB2 : List Nat := (List.range 157).map (fun k => 188 - k)

/-- The registers cleared before the `0x40` block: `0xff` down to `0x60`. -/
def resetRegsHigh : List Nat := (List.range 160).map (fun k => 255 - k)

/-- The `0x40` block of the clear loop: `0x5f` down to `0x40`. -/
def resetRegs40 : List Nat := (List.range 32).map (fun k => 95 - k)

/-- The `0x20` block of the clear loop: `0x3f` down to `0x20`. -/
def resetRegs20 : List Nat := (List.range 32).map (fun k => 63 - k)

/-- The pair of feedback-history values of one operator. -/
def op1Pair (s : OPL_SLOT) : Int × Int := (s.op1_out0, s.op1_out1)

/-! # Theorems -/

/-! ## Channel/slot access lemmas -/

theorem getCh_setCh_self (c : FM_OPL) (i : Nat) (ch : OPL_CH) (hi : i ≤ 8) :
    (c.setCh i ch).getCh i = ch := by
  interval_cases i <;> rfl

theorem getCh_setCh_ne (c : FM_OPL) (i j : Nat) (ch : OPL_CH) (hi : i ≤ 8)
    (hj : j ≤ 8) (h : i ≠ j) : (c.setCh i ch).getCh j = c.getCh j := by
  interval_cases i <;> (interval_cases j) <;> first | rfl | exact absurd rfl h

theorem setCh_setCh (c : FM_OPL) (i : Nat) (ch ch' : OPL_CH) (hi : i ≤ 8) :
    (c.setCh i ch).setCh i ch' = c.setCh i ch' := by
  interval_cases i <;> rfl

theorem getSlot_setSlot_self (ch : OPL_CH) (j : Nat) (s : OPL_SLOT)
    (hj : j ≤ 1) : (ch.setSlot j s).getSlot j = s := by
  interval_cases j <;> rfl

theorem setSlot_setSlot (ch : OPL_CH) (j : Nat) (s s' : OPL_SLOT)
    (hj : j ≤ 1) : (ch.setSlot j s).setSlot j s' = ch.setSlot j s' := by
  interval_cases j <;> rfl

/-! ## Mask and table-bound helpers -/

theorem and_ff_lt (r : Nat) : r &&& 0xff < 256 := by
  have h := Nat.and_le_right (n := r) (m := 0xff)
  omega

theorem and_ff_and_1f (r : Nat) : (r &&& 0xff) &&& 0x1f = r &&& 0x1f := by
  rw [Nat.and_assoc]
  congr 1

theorem and_ff_and_03 (v : Nat) : (v &&& 0xff) &&& 0x03 = v &&& 0x03 := by
  rw [Nat.and_assoc]
  congr 1

set_option maxRecDepth 4000 in
theorem and_e0_of_ge_e0 (x : Nat) (hlt : x < 256) (h : 0xe0 ≤ x) :
    x &&& 0xe0 = 0xe0 := by
  exact (by decide : ∀ y < 256, 0xe0 ≤ y → y &&& 0xe0 = 0xe0) x hlt h

theorem and_1f_lt (r : Nat) : r &&& 0x1f < 32 := by
  have h := Nat.and_le_right (n := r) (m := 0x1f)
  omega

theorem slot_array_at_le (i : Nat) : slot_array_at i ≤ 17 := by
  by_cases h : i < 32
  · exact (by decide : ∀ j < 32, slot_array_at j ≤ 17) i h
  · unfold slot_array_at
    rw [List.getD_eq_getElem?_getD, List.getElem?_eq_none (by rw [show slot_array.length = 32 from rfl]; omega)]
    norm_num

theorem ksl_tab_at_le (i : Nat) : ksl_tab_at i ≤ 224 := by
  by_cases h : i < 128
  · exact (by decide : ∀ j < 128, ksl_tab_at j ≤ 224) i h
  · unfold ksl_tab_at
    rw [List.getD_eq_getElem?_getD, List.getElem?_eq_none (by rw [show ksl_tab.length = 128 from rfl]; omega)]
    norm_num

theorem sl_tab_at_le (i : Nat) : sl_tab_at i ≤ 248 := by
  by_cases h : i < 16
  · exact (by decide : ∀ j < 16, sl_tab_at j ≤ 248) i h
  · unfold sl_tab_at
    rw [List.getD_eq_getElem?_getD, List.getElem?_eq_none (by rw [show sl_tab.length = 16 from rfl]; omega)]
    norm_num

theorem eg_inc_at_le (i : Nat) : eg_inc_at i ≤ 8 := by
  by_cases h : i < 120
  · exact (by decide : ∀ j < 120, eg_inc_at j ≤ 8) i h
  · unfold eg_inc_at
    rw [List.getD_eq_getElem?_getD, List.getElem?_eq_none (by rw [show eg_inc.length = 120 from rfl]; omega)]
    norm_num

theorem setCh_noise_rng (c : FM_OPL) (i : Nat) (ch : OPL_CH) :
    (c.setCh i ch).noise_rng = c.noise_rng := by
  unfold FM_OPL.setCh; split <;> rfl

theorem set_mul_noise_rng (c : FM_OPL) (slot v : Nat) :
    (set_mul c slot v).noise_rng = c.noise_rng := by
  simp [set_mul, setCh_noise_rng]

theorem set_ksl_tl_noise_rng (c : FM_OPL) (slot v : Nat) :
    (set_ksl_tl c slot v).noise_rng = c.noise_rng := by
  simp [set_ksl_tl, setCh_noise_rng]

theorem set_ar_dr_noise_rng (c : FM_OPL) (slot v : Nat) :
    (set_ar_dr c slot v).noise_rng = c.noise_rng := by
  simp [set_ar_dr, setCh_noise_rng]

theorem set_sl_rr_noise_rng (c : FM_OPL) (slot v : Nat) :
    (set_sl_rr c slot v).noise_rng = c.noise_rng := by
  simp [set_sl_rr, setCh_noise_rng]

theorem writeRhythm_noise_rng (c : FM_OPL) (v : Nat) :
    (writeRhythm c v).noise_rng = c.noise_rng := by
  simp [writeRhythm, setCh_noise_rng, apply_ite FM_OPL.noise_rng]

theorem writeFnum_noise_rng (c : FM_OPL) (r v : Nat) :
    (writeFnum c r v).noise_rng = c.noise_rng := by
  simp [writeFnum, setCh_noise_rng, apply_ite FM_OPL.noise_rng]

theorem writeControl_noise_rng (c : FM_OPL) (r v : Nat) :
    (writeControl c r v).noise_rng = c.noise_rng := by
  simp [writeControl, apply_ite FM_OPL.noise_rng]

theorem writeFeedbackCon_noise_rng (c : FM_OPL) (r v : Nat) :
    (writeFeedbackCon c r v).noise_rng = c.noise_rng := by
  simp [writeFeedbackCon, setCh_noise_rng, apply_ite FM_OPL.noise_rng]

theorem writeWaveformSel_noise_rng (c : FM_OPL) (r v : Nat) :
    (writeWaveformSel c r v).noise_rng = c.noise_rng := by
  simp [writeWaveformSel, setCh_noise_rng, apply_ite FM_OPL.noise_rng]

theorem OPLWriteReg_noise_rng (c : FM_OPL) (r v : Nat) :
    (OPLWriteReg c r v).noise_rng = c.noise_rng := by
  simp [OPLWriteReg, set_mul_noise_rng, set_ksl_tl_noise_rng,
        set_ar_dr_noise_rng, set_sl_rr_noise_rng, writeRhythm_noise_rng,
        writeFnum_noise_rng, setCh_noise_rng, writeControl_noise_rng,
        writeFeedbackCon_noise_rng, writeWaveformSel_noise_rng,
        apply_ite FM_OPL.noise_rng]

/-! ## Dispatch characterization of `OPLWriteReg` -/

theorem OPLWriteReg_ctl (c : FM_OPL) (r v : Nat)
    (h : (r &&& 0xff) &&& 0xe0 = 0x00) :
    OPLWriteReg c r v = writeControl c (r &&& 0xff) (v &&& 0xff) := by
  simp only [OPLWriteReg]
  rw [h, if_pos rfl]

theorem OPLWriteReg_op20 (c : FM_OPL) (r v : Nat)
    (h : (r &&& 0xff) &&& 0xe0 = 0x20) :
    OPLWriteReg c r v = (if slot_array_at (r &&& 0x1f) < 0 then c
      else set_mul c (slot_array_at (r &&& 0x1f)).toNat (v &&& 0xff)) := by
  simp only [OPLWriteReg]
  rw [h, if_neg (by decide : ¬(0x20 : Nat) = 0x00), if_pos rfl, and_ff_and_1f]

theorem OPLWriteReg_op40 (c : FM_OPL) (r v : Nat)
    (h : (r &&& 0xff) &&& 0xe0 = 0x40) :
    OPLWriteReg c r v = (if slot_array_at (r &&& 0x1f) < 0 then c
      else set_ksl_tl c (slot_array_at (r &&& 0x1f)).toNat (v &&& 0xff)) := by
  simp only [OPLWriteReg]
  rw [h, if_neg (by decide : ¬(0x40 : Nat) = 0x00),
      if_neg (by decide : ¬(0x40 : Nat) = 0x20), if_pos rfl, and_ff_and_1f]

theorem OPLWriteReg_op60 (c : FM_OPL) (r v : Nat)
    (h : (r &&& 0xff) &&& 0xe0 = 0x60) :
    OPLWriteReg c r v = (if slot_array_at (r &&& 0x1f) < 0 then c
      else set_ar_dr c (slot_array_at (r &&& 0x1f)).toNat (v &&& 0xff)) := by
  simp only [OPLWriteReg]
  rw [h, if_neg (by decide : ¬(0x60 : Nat) = 0x00),
      if_neg (by decide : ¬(0x60 : Nat) = 0x20),
      if_neg (by decide : ¬(0x60 : Nat) = 0x40), if_pos rfl, and_ff_and_1f]

theorem OPLWriteReg_op80 (c : FM_OPL) (r v : Nat)
    (h : (r &&& 0xff) &&& 0xe0 = 0x80) :
    OPLWriteReg c r v = (if slot_array_at (r &&& 0x1f) < 0 then c
      else set_sl_rr c (slot_array_at (r &&& 0x1f)).toNat (v &&& 0xff)) := by
  simp only [OPLWriteReg]
  rw [h, if_neg (by decide : ¬(0x80 : Nat) = 0x00),
      if_neg (by decide : ¬(0x80 : Nat) = 0x20),
      if_neg (by decide : ¬(0x80 : Nat) = 0x40),
      if_neg (by decide : ¬(0x80 : Nat) = 0x60), if_pos rfl, and_ff_and_1f]

theorem OPLWriteReg_a0 (c : FM_OPL) (r v : Nat)
    (h : (r &&& 0xff) &&& 0xe0 = 0xa0) :
    OPLWriteReg c r v = (if r &&& 0xff = 0xbd then writeRhythm c (v &&& 0xff)
      else writeFnum c (r &&& 0xff) (v &&& 0xff)) := by
  simp only [OPLWriteReg]
  rw [h, if_neg (by decide : ¬(0xa0 : Nat) = 0x00),
      if_neg (by decide : ¬(0xa0 : Nat) = 0x20),
      if_neg (by decide : ¬(0xa0 : Nat) = 0x40),
      if_neg (by decide : ¬(0xa0 : Nat) = 0x60),
      if_neg (by decide : ¬(0xa0 : Nat) = 0x80), if_pos rfl]

theorem OPLWriteReg_c0 (c : FM_OPL) (r v : Nat)
    (h : (r &&& 0xff) &&& 0xe0 = 0xc0) :
    OPLWriteReg c r v = writeFeedbackCon c (r &&& 0xff) (v &&& 0xff) := by
  simp only [OPLWriteReg]
  rw [h, if_neg (by decide : ¬(0xc0 : Nat) = 0x00),
      if_neg (by decide : ¬(0xc0 : Nat) = 0x20),
      if_neg (by decide : ¬(0xc0 : Nat) = 0x40),
      if_neg (by decide : ¬(0xc0 : Nat) = 0x60),
      if_neg (by decide : ¬(0xc0 : Nat) = 0x80),
      if_neg (by decide : ¬(0xc0 : Nat) = 0xa0), if_pos rfl]

theorem OPLWriteReg_e0 (c : FM_OPL) (r v : Nat)
    (h : (r &&& 0xff) &&& 0xe0 = 0xe0) :
    OPLWriteReg c r v = writeWaveformSel c (r &&& 0xff) (v &&& 0xff) := by
  simp only [OPLWriteReg]
  rw [h, if_neg (by decide : ¬(0xe0 : Nat) = 0x00),
      if_neg (by decide : ¬(0xe0 : Nat) = 0x20),
      if_neg (by decide : ¬(0xe0 : Nat) = 0x40),
      if_neg (by decide : ¬(0xe0 : Nat) = 0x60),
      if_neg (by decide : ¬(0xe0 : Nat) = 0x80),
      if_neg (by decide : ¬(0xe0 : Nat) = 0xa0),
      if_neg (by decide : ¬(0xe0 : Nat) = 0xc0)]

set_option maxRecDepth 4000 in
/-- The dispatch values of the register decoder, for case analysis. -/
theorem dispatch_cases (x : Nat) (hx : x < 256) :
    x &&& 0xe0 = 0x00 ∨ x &&& 0xe0 = 0x20 ∨ x &&& 0xe0 = 0x40 ∨
    x &&& 0xe0 = 0x60 ∨ x &&& 0xe0 = 0x80 ∨ x &&& 0xe0 = 0xa0 ∨
    x &&& 0xe0 = 0xc0 ∨ x &&& 0xe0 = 0xe0 := by
  exact (by decide : ∀ y < 256, y &&& 0xe0 = 0x00 ∨ y &&& 0xe0 = 0x20 ∨
    y &&& 0xe0 = 0x40 ∨ y &&& 0xe0 = 0x60 ∨ y &&& 0xe0 = 0x80 ∨
    y &&& 0xe0 = 0xa0 ∨ y &&& 0xe0 = 0xc0 ∨ y &&& 0xe0 = 0xe0) x hx

/-! ## Noise LFSR -/

theorem noiseStep_inv (s : Nat) (h0 : s ≠ 0) (hlt : s < 8388608) :
    noiseStep s ≠ 0 ∧ noiseStep s < 8388608 := by
  unfold noiseStep
  by_cases hb : s &&& 1 ≠ 0
  · rw [if_pos hb, Nat.shiftRight_eq_div_pow]
    have hs23 : s < 2 ^ 23 := by omega
    have hbit : (s ^^^ 0x800302).testBit 23 = true := by
      rw [Nat.testBit_xor, Nat.testBit_lt_two_pow hs23]
      decide
    have hge : 2 ^ 23 ≤ s ^^^ 0x800302 := by
      by_contra hcon
      rw [Nat.testBit_lt_two_pow (by omega : s ^^^ 0x800302 < 2 ^ 23)] at hbit
      exact Bool.false_ne_true hbit
    have hlt24 : s ^^^ 0x800302 < 2 ^ 24 :=
      Nat.xor_lt_two_pow (by omega : s < 2 ^ 24) (by norm_num)
    simp only [Nat.pow_one]
    omega
  · rw [if_neg hb, Nat.shiftRight_eq_div_pow]
    rw [Nat.and_one_is_mod] at hb
    simp only [Nat.pow_one]
    omega

theorem noiseStep_iterate_inv (n : Nat) :
    noiseStep^[n] 1 ≠ 0 ∧ noiseStep^[n] 1 < 8388608 := by
  induction n with
  | zero => exact ⟨Nat.one_ne_zero, by norm_num⟩
  | succ m ih =>
    rw [Function.iterate_succ_apply']
    exact noiseStep_inv _ ih.1 ih.2

theorem foldl_write0_noise_rng (L : List Nat) (x : FM_OPL) :
    (L.foldl (fun ch r => OPLWriteReg ch r 0) x).noise_rng = x.noise_rng := by
  induction L generalizing x with
  | nil => rfl
  | cons r L ih => rw [List.foldl_cons, ih, OPLWriteReg_noise_rng]

theorem OPL_STATUS_RESET_noise_rng (c : FM_OPL) (flag : Nat) :
    (OPL_STATUS_RESET c flag).noise_rng = c.noise_rng := by
  simp [OPL_STATUS_RESET, apply_ite FM_OPL.noise_rng]

theorem OPLResetChip_noise_rng (c : FM_OPL) :
    (OPLResetChip c).noise_rng = 1 := by
  simp [OPLResetChip, resetSlots, FM_OPL.mapChs, foldl_write0_noise_rng,
        OPLWriteReg_noise_rng, OPL_STATUS_RESET_noise_rng]

/-- C4: after reset the noise shift register is seeded to 1, and from that
seed the LFSR step (XOR `0x800302` when bit 0 is set, then shift right)
never reaches 0, after any number of steps. -/
theorem c4_noise_lfsr_never_zero (c : FM_OPL) (n : Nat) :
    (OPLResetChip c).noise_rng = 1 ∧ noiseStep^[n] 1 ≠ 0 :=
  ⟨OPLResetChip_noise_rng c, (noiseStep_iterate_inv n).1⟩

/-! ## The slot table (C6) -/

/-- C6 counterexample: the 32-entry slot table has 14 reserved offsets,
not 6. -/
theorem c6_counterexample_slot_gaps :
    ((List.range 32).filter (fun i => slot_array_at i < 0)).length ≠ 6 := by
  decide

/-- C6 (amended): operator-block register offsets map through the 32-entry
slot table; exactly 14 (not 6) of the 32 offsets are reserved, and a write
to a reserved offset in any operator-parameter block (including the
waveform block when wave-select is enabled) leaves the chip unchanged. -/
theorem c6_slot_table_gaps :
    ((List.range 32).filter (fun i => slot_array_at i < 0)).length = 14 ∧
    ∀ (c : FM_OPL) (r v : Nat),
      ((r &&& 0xff) &&& 0xe0 = 0x20 ∨ (r &&& 0xff) &&& 0xe0 = 0x40 ∨
       (r &&& 0xff) &&& 0xe0 = 0x60 ∨ (r &&& 0xff) &&& 0xe0 = 0x80 ∨
       ((r &&& 0xff) &&& 0xe0 = 0xe0 ∧ c.wavesel ≠ 0)) →
      slot_array_at (r &&& 0x1f) < 0 → OPLWriteReg c r v = c := by
  refine ⟨by decide, ?_⟩
  intro c r v hblk hslot
  rcases hblk with h | h | h | h | ⟨h, hw⟩
  · rw [OPLWriteReg_op20 c r v h, if_pos hslot]
  · rw [OPLWriteReg_op40 c r v h, if_pos hslot]
  · rw [OPLWriteReg_op60 c r v h, if_pos hslot]
  · rw [OPLWriteReg_op80 c r v h, if_pos hslot]
  · rw [OPLWriteReg_e0 c r v h]
    simp only [writeWaveformSel, and_ff_and_1f]
    rw [if_pos hw, if_pos hslot]

/-- C6 witness: a write to reserved offset `0x26` is a no-op. -/
theorem c6_slot_table_gaps_witness : OPLWriteReg chip0 0x26 7 = chip0 :=
  c6_slot_table_gaps.2 chip0 0x26 7 (by decide) (by decide)

/-- C2: writes to the waveform-select block (`0xe0`-`0xff`) are ignored
completely while `wavesel` is disabled; with `wavesel` enabled, a write to
a valid waveform-select offset immediately sets that operator's waveform
index to the low 2 bits of the value. -/
theorem c2_waveform_select_gating :
    (∀ (c : FM_OPL) (r v : Nat), 0xe0 ≤ r &&& 0xff → c.wavesel = 0 →
      OPLWriteReg c r v = c) ∧
    (∀ (c : FM_OPL) (r v : Nat), 0xe0 ≤ r &&& 0xff → c.wavesel ≠ 0 →
      0 ≤ slot_array_at (r &&& 0x1f) →
      (((OPLWriteReg c r v).getCh
          ((slot_array_at (r &&& 0x1f)).toNat / 2)).getSlot
        ((slot_array_at (r &&& 0x1f)).toNat &&& 1)).wavetable = v &&& 0x03) := by
  constructor
  · intro c r v hr hw
    have he := and_e0_of_ge_e0 (r &&& 0xff) (and_ff_lt r) hr
    rw [OPLWriteReg_e0 c r v he]
    simp only [writeWaveformSel]
    rw [if_neg (by simp [hw])]
  · intro c r v hr hw hs
    have he := and_e0_of_ge_e0 (r &&& 0xff) (and_ff_lt r) hr
    have hst := slot_array_at_le (r &&& 0x1f)
    rw [OPLWriteReg_e0 c r v he]
    simp only [writeWaveformSel, and_ff_and_1f]
    rw [if_pos hw, if_neg (by omega : ¬ slot_array_at (r &&& 0x1f) < 0)]
    have hi : (slot_array_at (r &&& 0x1f)).toNat / 2 ≤ 8 := by omega
    have hj : (slot_array_at (r &&& 0x1f)).toNat &&& 1 ≤ 1 := Nat.and_le_right
    rw [getCh_setCh_self _ _ _ hi, getSlot_setSlot_self _ _ _ hj]
    simp [and_ff_and_03]

/-- C2 witness: concrete writes to register `0xe0`, with wave-select
disabled and enabled. -/
theorem c2_waveform_select_gating_witness :
    OPLWriteReg chip0 0xe0 3 = chip0 ∧
    (((OPLWriteReg { chip0 with wavesel := 32 } 0xe0 3).getCh
        ((slot_array_at (0xe0 &&& 0x1f)).toNat / 2)).getSlot
      ((slot_array_at (0xe0 &&& 0x1f)).toNat &&& 1)).wavetable = 3 &&& 0x03 :=
  ⟨c2_waveform_select_gating.1 chip0 0xe0 3 (by decide) rfl,
   c2_waveform_select_gating.2 { chip0 with wavesel := 32 } 0xe0 3 (by decide)
     (by decide) (by decide)⟩

/-! ## Envelope generator invariants (C1, C8) -/

theorem getSlot_setSlot_ne (ch : OPL_CH) (j k : Nat) (s : OPL_SLOT)
    (hj : j ≤ 1) (hk : k ≤ 1) (h : j ≠ k) :
    (ch.setSlot j s).getSlot k = ch.getSlot k := by
  interval_cases j <;> interval_cases k <;> first | rfl | exact absurd rfl h

theorem CALC_FCSLOT_state (ch : OPL_CH) (s : OPL_SLOT) :
    (CALC_FCSLOT ch s).state = s.state := by
  unfold CALC_FCSLOT
  dsimp only
  split_ifs <;> rfl

theorem egFire_SlotEGInv (cnt : Nat) (op : OPL_SLOT) (h : SlotEGInv op) :
    SlotEGInv (egFire cnt op) := by
  obtain ⟨h0, h1, hdec, hsl⟩ := h
  unfold egFire
  split
  case _ hst => -- attack
    have hinc := eg_inc_at_le (op.eg_sel_ar + ((cnt >>> op.eg_sh_ar) &&& 7))
    have hP : (-op.volume - 1) *
        (eg_inc_at (op.eg_sel_ar + ((cnt >>> op.eg_sh_ar) &&& 7)) : Int) ≤ 0 :=
      Int.mul_nonpos_of_nonpos_of_nonneg (by omega) (by omega)
    try dsimp only
    rw [Int.fdiv_eq_ediv _ (by norm_num : (0:Int) ≤ 8)]
    split_ifs with hfire hclamp
    · simp only [SlotEGInv, MIN_ATT_INDEX, EG_DEC]
      exact ⟨by omega, by omega, by omega, hsl⟩
    · simp only [MIN_ATT_INDEX] at hclamp
      simp only [SlotEGInv, EG_DEC]
      exact ⟨by omega, by omega, by omega, hsl⟩
    · exact ⟨h0, h1, hdec, hsl⟩
  case _ hst => -- decay
    have hinc := eg_inc_at_le (op.eg_sel_dr + ((cnt >>> op.eg_sh_dr) &&& 7))
    have hd : op.volume ≤ 495 := hdec (by rw [hst]; rfl)
    try dsimp only
    split_ifs with hfire hsus
    · simp only [SlotEGInv, EG_SUS, EG_DEC]
      exact ⟨by omega, by omega, by omega, hsl⟩
    · simp only [u32i] at hsus
      simp only [SlotEGInv, EG_DEC]
      exact ⟨by omega, by omega, by omega, hsl⟩
    · exact ⟨h0, h1, hdec, hsl⟩
  case _ hst => -- sustain
    have hinc := eg_inc_at_le (op.eg_sel_rr + ((cnt >>> op.eg_sh_rr) &&& 7))
    try dsimp only
    split_ifs with htyp hfire hclamp
    · exact ⟨h0, h1, hdec, hsl⟩
    · simp only [SlotEGInv, MAX_ATT_INDEX, EG_DEC]
      exact ⟨by omega, by omega, by omega, hsl⟩
    · simp only [MAX_ATT_INDEX] at hclamp
      simp only [SlotEGInv, EG_DEC]
      exact ⟨by omega, by omega, by omega, hsl⟩
    · exact ⟨h0, h1, hdec, hsl⟩
  case _ hst => -- release
    have hinc := eg_inc_at_le (op.eg_sel_rr + ((cnt >>> op.eg_sh_rr) &&& 7))
    try dsimp only
    split_ifs with hfire hclamp
    · simp only [SlotEGInv, MAX_ATT_INDEX, EG_OFF, EG_DEC]
      exact ⟨by omega, by omega, by omega, hsl⟩
    · simp only [MAX_ATT_INDEX] at hclamp
      simp only [SlotEGInv, EG_DEC]
      exact ⟨by omega, by omega, by omega, hsl⟩
    · exact ⟨h0, h1, hdec, hsl⟩
  case _ => exact ⟨h0, h1, hdec, hsl⟩

theorem getCh_mapChs (c : FM_OPL) (f : OPL_CH → OPL_CH) (i : Nat) (hi : i ≤ 8) :
    (c.mapChs f).getCh i = f (c.getCh i) := by
  interval_cases i <;> rfl

theorem getSlot_mapSlots (ch : OPL_CH) (f : OPL_SLOT → OPL_SLOT) (j : Nat)
    (hj : j ≤ 1) : (ch.mapSlots f).getSlot j = f (ch.getSlot j) := by
  interval_cases j <;> rfl

theorem getCh_upd_eg_cnt (c : FM_OPL) (x i : Nat) (hi : i ≤ 8) :
    ({ c with eg_cnt := x } : FM_OPL).getCh i = c.getCh i := by
  interval_cases i <;> rfl

theorem getCh_upd_eg_timer (c : FM_OPL) (x i : Nat) (hi : i ≤ 8) :
    ({ c with eg_timer := x } : FM_OPL).getCh i = c.getCh i := by
  interval_cases i <;> rfl

theorem getCh_upd_noise (c : FM_OPL) (a b i : Nat) (hi : i ≤ 8) :
    ({ c with noise_p := a, noise_rng := b } : FM_OPL).getCh i = c.getCh i := by
  interval_cases i <;> rfl

theorem egRun_ChipEGInv (k : Nat) :
    ∀ c : FM_OPL, ChipEGInv c → ChipEGInv (egRun k c) := by
  induction k with
  | zero => exact fun c h => h
  | succ n ih =>
    intro c h
    apply ih
    intro i hi j hj
    rw [getCh_mapChs _ _ _ hi, getSlot_mapSlots _ _ _ hj]
    exact egFire_SlotEGInv _ _ (by rw [getCh_upd_eg_cnt _ _ _ hi]; exact h i hi j hj)

theorem phaseStep_SlotEGInv (f : Nat → Nat) (pm bf : Nat) (op : OPL_SLOT)
    (h : SlotEGInv op) : SlotEGInv (phaseStep f pm bf op) := by
  unfold phaseStep
  dsimp only
  split_ifs <;> exact ⟨h.1, h.2.1, h.2.2.1, h.2.2.2⟩

theorem advance_ChipEGInv (pm : Nat) (c : FM_OPL) (h : ChipEGInv c) :
    ChipEGInv (advance pm c) := by
  unfold advance
  try dsimp only
  intro i hi j hj
  rw [getCh_upd_noise _ _ _ _ hi, getCh_mapChs _ _ _ hi,
      getSlot_mapSlots _ _ _ hj]
  apply phaseStep_SlotEGInv
  refine egRun_ChipEGInv _ _ ?_ i hi j hj
  intro i hi j hj
  rw [getCh_upd_eg_timer _ _ _ hi]
  exact h i hi j hj

/-- C1: for all operators, from any well-formed envelope state, the
attenuation (`volume`) stays within `[0, 511]` after any sequence of
per-sample `advance` steps. -/
theorem c1_attenuation_in_range (pms : List Nat) (c : FM_OPL)
    (h : ChipEGInv c) :
    ∀ i ≤ 8, ∀ j ≤ 1,
      0 ≤ (((pms.foldl (fun s pm => advance pm s) c).getCh i).getSlot j).volume ∧
      (((pms.foldl (fun s pm => advance pm s) c).getCh i).getSlot j).volume ≤ 511 := by
  have hfold : ChipEGInv (pms.foldl (fun s pm => advance pm s) c) := by
    induction pms generalizing c with
    | nil => exact h
    | cons p ps ih => exact ih _ (advance_ChipEGInv p c h)
  exact fun i hi j hj => ⟨(hfold i hi j hj).1, (hfold i hi j hj).2.1⟩

/-- C1 witness: one advance step on a freshly created chip. -/
theorem c1_attenuation_in_range_witness :
    ChipEGInv chip0 ∧
    (0 ≤ ((([0].foldl (fun s pm => advance pm s) chip0).getCh 0).getSlot 0).volume ∧
     ((([0].foldl (fun s pm => advance pm s) chip0).getCh 0).getSlot 0).volume ≤ 511) :=
  ⟨by unfold ChipEGInv SlotEGInv; decide,
   c1_attenuation_in_range [0] chip0 (by unfold ChipEGInv SlotEGInv; decide) 0
     (by norm_num) 0 (by norm_num)⟩

theorem egFire_SUS_state (cnt : Nat) (op : OPL_SLOT) (h : op.state = EG_SUS) :
    (egFire cnt op).state = EG_SUS := by
  have h2 : op.state = 2 := h
  simp only [egFire, h2]
  split_ifs <;> first | exact h | rfl

theorem set_mul_state (c : FM_OPL) (slot v i j : Nat) (hs : slot ≤ 17)
    (hi : i ≤ 8) (hj : j ≤ 1) :
    (((set_mul c slot v).getCh i).getSlot j).state =
      ((c.getCh i).getSlot j).state := by
  unfold set_mul
  try dsimp only
  by_cases hic : slot / 2 = i
  · subst hic
    rw [getCh_setCh_self _ _ _ (by omega)]
    by_cases hjc : slot &&& 1 = j
    · subst hjc
      rw [getSlot_setSlot_self _ _ _ Nat.and_le_right, CALC_FCSLOT_state]
    · rw [getSlot_setSlot_ne _ _ _ _ Nat.and_le_right hj hjc]
  · rw [getCh_setCh_ne _ _ _ _ (by omega) hi hic]

/-- C8: a `set_mul` register write (which latches the percussive /
non-percussive EG-type bit) never changes any operator's envelope state;
an operator in SUSTAIN stays in SUSTAIN across any sequence of envelope
firings; and in non-percussive mode a SUSTAIN operator is left entirely
unchanged by a firing. -/
theorem c8_sustain_stable :
    (∀ (c : FM_OPL) (slot v i j : Nat), slot ≤ 17 → i ≤ 8 → j ≤ 1 →
      (((set_mul c slot v).getCh i).getSlot j).state =
        ((c.getCh i).getSlot j).state) ∧
    (∀ (op : OPL_SLOT) (cnts : List Nat), op.state = EG_SUS →
      (cnts.foldl (fun s k => egFire k s) op).state = EG_SUS) ∧
    (∀ (op : OPL_SLOT) (cnt : Nat), op.state = EG_SUS → op.eg_type ≠ 0 →
      egFire cnt op = op) := by
  refine ⟨set_mul_state, ?_, ?_⟩
  · intro op cnts h
    induction cnts generalizing op with
    | nil => exact h
    | cons k ks ih => exact ih _ (egFire_SUS_state k op h)
  · intro op cnt h ht
    have h2 : op.state = 2 := h
    simp only [egFire, h2]
    rw [if_pos ht]

/-- C8 witness: a sustained operator with the non-percussive bit set. -/
theorem c8_sustain_stable_witness :
    (((set_mul chip0 3 0x25).getCh 1).getSlot 1).state =
      ((chip0.getCh 1).getSlot 1).state ∧
    (([7, 8].foldl (fun s k => egFire k s)
        { slotZ with state := 2 }).state = EG_SUS) ∧
    egFire 5 { slotZ with state := 2, eg_type := 32 } =
      { slotZ with state := 2, eg_type := 32 } :=
  ⟨c8_sustain_stable.1 chip0 3 0x25 1 1 (by norm_num) (by norm_num) (by norm_num),
   c8_sustain_stable.2.1 { slotZ with state := 2 } [7, 8] (by decide),
   c8_sustain_stable.2.2 { slotZ with state := 2, eg_type := 32 } 5 (by decide)
     (by decide)⟩

/-! ## Sample store without saturation (C10) -/

/-- C10: the sample loop emits `storeSample` of the raw accumulator (the
`limit` clamp is absent); the store truncates modulo `2^16` into a signed
16-bit value rather than clamping to `MAXOUT`/`MINOUT`. -/
theorem c10_store_truncates_no_clamp :
    (∀ (T : WaveTables) (rh : Bool) (n : Nat) (c : FM_OPL),
      (updLoop T rh n c).2 = (updRawLoop T rh n c).map storeSample) ∧
    (∀ x : Int, storeSample x = (x + 32768) % 65536 - 32768) ∧
    storeSample 40000 = -25536 ∧ limit 40000 32767 (-32768) = 32767 := by
  refine ⟨?_, ?_, (by decide), by decide⟩
  · intro T rh n
    induction n with
    | zero => intro c; rfl
    | succ k ih =>
      intro c
      rcases hstep : stepSample T rh c with ⟨c1, lt⟩
      simp only [updLoop, updRawLoop, hstep, List.map_cons, ih]
  · intro x
    unfold storeSample u32i
    dsimp only
    split_ifs <;> omega

/-! ## The quiet-threshold optimization (C7) -/

/-- C7 counterexample: both operators of `chQuiet` are at or above
`ENV_QUIET`, yet the channel still adds operator 1's delayed feedback
output (7, routed to the output accumulator by `connect1`) to the sample. -/
theorem c7_counterexample_quiet_contribution :
    ENV_QUIET ≤ volume_calc 0 chQuiet.SLOT0 ∧
    ENV_QUIET ≤ volume_calc 0 chQuiet.SLOT1 ∧
    (OPL_CALC_CH T0 0 chQuiet).2 ≠ 0 := by
  decide

/-- C7 (amended): if an operator's instantaneous attenuation is at or
above `ENV_QUIET`, its newly computed output for the sample is zero:
operator 2 then adds nothing of its own to the accumulator (only operator
1's one-sample-delayed pass-through remains), and operator 1's fresh
feedback output is zeroed. -/
theorem c7_quiet_threshold (T : WaveTables) (lfoAM : Nat) (ch : OPL_CH) :
    (ENV_QUIET ≤ volume_calc lfoAM ch.SLOT0 →
      ((OPL_CALC_CH T lfoAM ch).1.SLOT0).op1_out1 = 0) ∧
    (ENV_QUIET ≤ volume_calc lfoAM ch.SLOT1 →
      (OPL_CALC_CH T lfoAM ch).2 =
        (if ch.SLOT0.connect1 then ch.SLOT0.op1_out1 else 0)) := by
  unfold OPL_CALC_CH
  dsimp only
  constructor
  · intro h
    have hz : ¬ volume_calc lfoAM ch.SLOT0 < ENV_QUIET := by omega
    rw [if_neg hz]
  · intro h
    have hz : ¬ volume_calc lfoAM ch.SLOT1 < ENV_QUIET := by omega
    rw [if_neg hz, add_zero]

/-- C7 witness: the amended theorem applied to `chQuiet`. -/
theorem c7_quiet_threshold_witness :
    ((OPL_CALC_CH T0 0 chQuiet).1.SLOT0).op1_out1 = 0 ∧
    (OPL_CALC_CH T0 0 chQuiet).2 =
      (if chQuiet.SLOT0.connect1 then chQuiet.SLOT0.op1_out1 else 0) :=
  ⟨(c7_quiet_threshold T0 0 chQuiet).1 (by decide),
   (c7_quiet_threshold T0 0 chQuiet).2 (by decide)⟩

/-! ## Live rhythm-flag refinement (C5) -/

theorem advance_lfo_rhythm (c : FM_OPL) : (advance_lfo c).1.rhythm = c.rhythm := rfl

theorem egRun_rhythm (k : Nat) : ∀ c : FM_OPL, (egRun k c).rhythm = c.rhythm := by
  induction k with
  | zero => exact fun _ => rfl
  | succ n ih =>
    intro c
    rw [egRun, ih]
    rfl

theorem advance_rhythm (pm : Nat) (c : FM_OPL) :
    (advance pm c).rhythm = c.rhythm := by
  unfold advance
  dsimp only
  rw [show ∀ x : FM_OPL, ∀ a b : Nat,
        ({ x with noise_p := a, noise_rng := b } : FM_OPL).rhythm = x.rhythm
      from fun _ _ _ => rfl]
  rw [show ∀ x : FM_OPL, ∀ f, (FM_OPL.mapChs x f).rhythm = x.rhythm
      from fun _ _ => rfl]
  rw [egRun_rhythm]

theorem stepSample_rhythm (T : WaveTables) (rh : Bool) (c : FM_OPL) :
    (stepSample T rh c).1.rhythm = c.rhythm := by
  simp only [stepSample, advance_lfo, OPL_CALC_CH, OPL_CALC_RH]
  dsimp only
  split <;> rw [advance_rhythm]

theorem updLoop_eq_updateLive (T : WaveTables) (rh : Bool) (n : Nat) :
    ∀ c : FM_OPL, rh = decide (c.rhythm &&& 0x20 ≠ 0) →
      updLoop T rh n c = updateLive T n c := by
  induction n with
  | zero => intro c _; rfl
  | succ k ih =>
    intro c hrh
    rcases hstep : stepSample T rh c with ⟨c1, lt⟩
    have hr1 : c1.rhythm = c.rhythm := by
      rw [← stepSample_rhythm T rh c, hstep]
    have hstep2 : stepSample T (decide (c.rhythm &&& 0x20 ≠ 0)) c = (c1, lt) := by
      rw [← hrh]
      exact hstep
    simp only [updLoop, updateLive, hstep, hstep2]
    rw [ih c1 (by rw [hr1]; exact hrh)]

/-- C5: reading the rhythm flag once before the sample loop is
observationally identical to re-evaluating the live rhythm-enable flag at
every sample (the loop never changes the flag), so a register write
toggling rhythm mode is visible on the very next generated sample. -/
theorem c5_rhythm_flag_live (T : WaveTables) (c : FM_OPL) (n : Nat) :
    ym3812_update_one T c n = updateLive T n c :=
  updLoop_eq_updateLive T (decide (c.rhythm &&& 0x20 ≠ 0)) n c rfl

/-! ## Idempotence of the register decode (C9) -/

theorem setSlot_block_fnum (ch : OPL_CH) (j : Nat) (s : OPL_SLOT) (hj : j ≤ 1) :
    (ch.setSlot j s).block_fnum = ch.block_fnum := by
  interval_cases j <;> rfl

theorem setSlot_fc (ch : OPL_CH) (j : Nat) (s : OPL_SLOT) (hj : j ≤ 1) :
    (ch.setSlot j s).fc = ch.fc := by
  interval_cases j <;> rfl

theorem setSlot_ksl_base (ch : OPL_CH) (j : Nat) (s : OPL_SLOT) (hj : j ≤ 1) :
    (ch.setSlot j s).ksl_base = ch.ksl_base := by
  interval_cases j <;> rfl

theorem setSlot_kcode (ch : OPL_CH) (j : Nat) (s : OPL_SLOT) (hj : j ≤ 1) :
    (ch.setSlot j s).kcode = ch.kcode := by
  interval_cases j <;> rfl

theorem slot_eta_Incr (s : OPL_SLOT) {x : Nat} (h : s.Incr = x) :
    { s with Incr := x } = s := by
  subst h; rfl

theorem slot_eta_key (s : OPL_SLOT) {x : Nat} (h : s.key = x) :
    { s with key := x } = s := by
  subst h; rfl

theorem slot_eta5 (s : OPL_SLOT) {a b c d e : Nat} (ha : s.mul = a)
    (hb : s.KSR = b) (hc : s.eg_type = c) (hd : s.vib = d) (he : s.AMmask = e) :
    { s with mul := a, KSR := b, eg_type := c, vib := d, AMmask := e } = s := by
  subst ha hb hc hd he; rfl

theorem or_ne_zero_left (a b : Nat) (h : a ≠ 0) : a ||| b ≠ 0 := by
  intro hz
  apply h
  apply Nat.eq_of_testBit_eq
  intro i
  have ht := congrArg (fun n => n.testBit i) hz
  simp only [Nat.testBit_or, Nat.zero_testBit] at ht
  rw [Nat.zero_testBit]
  exact (Bool.or_eq_false_iff.mp ht).1

theorem or_ne_zero_right (a b : Nat) (h : b ≠ 0) : a ||| b ≠ 0 := by
  intro hz
  apply h
  apply Nat.eq_of_testBit_eq
  intro i
  have ht := congrArg (fun n => n.testBit i) hz
  simp only [Nat.testBit_or, Nat.zero_testBit] at ht
  rw [Nat.zero_testBit]
  exact (Bool.or_eq_false_iff.mp ht).2

theorem CALC_FCSLOT_mul (ch : OPL_CH) (s : OPL_SLOT) :
    (CALC_FCSLOT ch s).mul = s.mul := by
  unfold CALC_FCSLOT; dsimp only; split_ifs <;> rfl

theorem CALC_FCSLOT_KSR (ch : OPL_CH) (s : OPL_SLOT) :
    (CALC_FCSLOT ch s).KSR = s.KSR := by
  unfold CALC_FCSLOT; dsimp only; split_ifs <;> rfl

theorem CALC_FCSLOT_eg_type (ch : OPL_CH) (s : OPL_SLOT) :
    (CALC_FCSLOT ch s).eg_type = s.eg_type := by
  unfold CALC_FCSLOT; dsimp only; split_ifs <;> rfl

theorem CALC_FCSLOT_vib (ch : OPL_CH) (s : OPL_SLOT) :
    (CALC_FCSLOT ch s).vib = s.vib := by
  unfold CALC_FCSLOT; dsimp only; split_ifs <;> rfl

theorem CALC_FCSLOT_AMmask (ch : OPL_CH) (s : OPL_SLOT) :
    (CALC_FCSLOT ch s).AMmask = s.AMmask := by
  unfold CALC_FCSLOT; dsimp only; split_ifs <;> rfl

theorem CALC_FCSLOT_Incr (ch : OPL_CH) (s : OPL_SLOT) :
    (CALC_FCSLOT ch s).Incr = u32 (ch.fc * s.mul) := by
  unfold CALC_FCSLOT; dsimp only; split_ifs <;> rfl

theorem CALC_FCSLOT_ksr_eq (ch : OPL_CH) (s : OPL_SLOT) :
    (CALC_FCSLOT ch s).ksr = ch.kcode >>> (CALC_FCSLOT ch s).KSR := by
  unfold CALC_FCSLOT
  dsimp only
  split_ifs with h h2
  · rfl
  · rfl
  · exact not_ne_iff.mp h

theorem CALC_FCSLOT_stable (ch2 ch : OPL_CH) (s : OPL_SLOT)
    (hfc : ch2.fc = ch.fc) (hkc : ch2.kcode = ch.kcode) :
    CALC_FCSLOT ch2 (CALC_FCSLOT ch s) = CALC_FCSLOT ch s := by
  have hksr := CALC_FCSLOT_ksr_eq ch s
  have hmul := CALC_FCSLOT_mul ch s
  have hincr := CALC_FCSLOT_Incr ch s
  conv_lhs => rw [CALC_FCSLOT]
  dsimp only
  rw [if_neg (by rw [hksr, hkc]; exact not_ne_iff.mpr rfl)]
  apply slot_eta_Incr
  rw [hincr, hfc, hmul]

theorem setSlot_getSlot_self (ch : OPL_CH) (j : Nat) (hj : j ≤ 1) :
    ch.setSlot j (ch.getSlot j) = ch := by
  interval_cases j <;> rfl

theorem CALC_FCSLOT_key (ch : OPL_CH) (s : OPL_SLOT) :
    (CALC_FCSLOT ch s).key = s.key := by
  unfold CALC_FCSLOT; dsimp only; split_ifs <;> rfl

theorem CALC_FCSLOT_of_ksr (ch : OPL_CH) (X : OPL_SLOT)
    (h : X.ksr = ch.kcode >>> X.KSR) (hI : X.Incr = u32 (ch.fc * X.mul)) :
    CALC_FCSLOT ch X = X := by
  unfold CALC_FCSLOT
  dsimp only
  rw [if_neg (not_ne_iff.mpr h)]
  exact slot_eta_Incr X hI

theorem setChSlot_idem (i j : Nat) (hi : i ≤ 8) (hj : j ≤ 1)
    (F : OPL_CH → OPL_SLOT → OPL_SLOT) (c : FM_OPL)
    (hF : ∀ ch s, F (ch.setSlot j (F ch s)) (F ch s) = F ch s) :
    (fun d : FM_OPL =>
        d.setCh i ((d.getCh i).setSlot j (F (d.getCh i) ((d.getCh i).getSlot j))))
      ((fun d : FM_OPL =>
        d.setCh i ((d.getCh i).setSlot j (F (d.getCh i) ((d.getCh i).getSlot j)))) c)
    = (fun d : FM_OPL =>
        d.setCh i ((d.getCh i).setSlot j (F (d.getCh i) ((d.getCh i).getSlot j)))) c := by
  dsimp only
  rw [getCh_setCh_self _ _ _ hi, getSlot_setSlot_self _ _ _ hj, hF,
      setSlot_setSlot _ _ _ _ hj, setCh_setCh _ _ _ _ hi]

theorem set_mul_core (j v : Nat) (hj : j ≤ 1) (ch : OPL_CH) (X : OPL_SLOT)
    (hmul : X.mul = mul_tab8_at (v &&& 0x0f))
    (hKSR : X.KSR = if v &&& 0x10 ≠ 0 then 0 else 2)
    (hegt : X.eg_type = v &&& 0x20)
    (hvib : X.vib = v &&& 0x40)
    (hAM : X.AMmask = if v &&& 0x80 ≠ 0 then 4294967295 else 0)
    (hksr : X.ksr = ch.kcode >>> X.KSR)
    (hInc : X.Incr = u32 (ch.fc * X.mul)) :
    CALC_FCSLOT (ch.setSlot j X)
      { X with mul := mul_tab8_at (v &&& 0x0f),
               KSR := if v &&& 0x10 ≠ 0 then 0 else 2,
               eg_type := v &&& 0x20,
               vib := v &&& 0x40,
               AMmask := if v &&& 0x80 ≠ 0 then 4294967295 else 0 } = X := by
  rw [slot_eta5 X hmul hKSR hegt hvib hAM]
  apply CALC_FCSLOT_of_ksr
  · rw [setSlot_kcode ch j X hj]
    exact hksr
  · rw [setSlot_fc ch j X hj]
    exact hInc

theorem set_mul_idem (c : FM_OPL) (slot v : Nat) (hs : slot ≤ 17) :
    set_mul (set_mul c slot v) slot v = set_mul c slot v := by
  have hi : slot / 2 ≤ 8 := by omega
  have hj : slot &&& 1 ≤ 1 := by
    have h := Nat.and_le_right (n := slot) (m := 1); omega
  refine setChSlot_idem (slot / 2) (slot &&& 1) hi hj
    (fun ch s => CALC_FCSLOT ch { s with
      mul := mul_tab8_at (v &&& 0x0f),
      KSR := if v &&& 0x10 ≠ 0 then 0 else 2,
      eg_type := v &&& 0x20,
      vib := v &&& 0x40,
      AMmask := if v &&& 0x80 ≠ 0 then 4294967295 else 0 }) c ?_
  intro ch s
  dsimp only
  exact set_mul_core (slot &&& 1) v hj ch _ (by rw [CALC_FCSLOT_mul])
    (by rw [CALC_FCSLOT_KSR]) (by rw [CALC_FCSLOT_eg_type])
    (by rw [CALC_FCSLOT_vib]) (by rw [CALC_FCSLOT_AMmask])
    (CALC_FCSLOT_ksr_eq ch _) (by rw [CALC_FCSLOT_Incr, CALC_FCSLOT_mul])

theorem setCh_wavesel (c : FM_OPL) (i : Nat) (ch : OPL_CH) :
    (c.setCh i ch).wavesel = c.wavesel := by
  unfold FM_OPL.setCh; split <;> rfl

theorem writeControl_idem (c : FM_OPL) (r v : Nat) :
    writeControl (writeControl c r v) r v = writeControl c r v := by
  unfold writeControl
  by_cases h1 : r &&& 0x1f = 0x01
  · rw [if_pos h1, if_pos h1]
    by_cases h2 : c.type &&& OPL_TYPE_WAVESEL ≠ 0
    · rw [if_pos h2]
      dsimp only
      rw [if_pos h2]
    · rw [if_neg h2, if_neg h2]
  · rw [if_neg h1, if_neg h1]
    by_cases h2 : r &&& 0x1f = 0x08
    · rw [if_pos h2, if_pos h2]
    · rw [if_neg h2, if_neg h2]

theorem FM_KEYON_idem (s : OPL_SLOT) (k : Nat) (hk : k ≠ 0) :
    FM_KEYON (FM_KEYON s k) k = FM_KEYON s k := by
  unfold FM_KEYON
  by_cases h1 : s.key = 0
  · rw [if_pos h1]
    rw [if_neg (show ¬ ({ s with Cnt := 0, state := EG_ATT, key := s.key ||| k } : OPL_SLOT).key = 0 from or_ne_zero_right s.key k hk)]
    exact slot_eta_key _ (by dsimp only; rw [Nat.or_assoc, Nat.or_self])
  · rw [if_neg h1]
    rw [if_neg (show ¬ ({ s with key := s.key ||| k } : OPL_SLOT).key = 0 from or_ne_zero_left s.key k h1)]
    exact slot_eta_key _ (by dsimp only; rw [Nat.or_assoc, Nat.or_self])

theorem FM_KEYOFF_idem (s : OPL_SLOT) (m : Nat) :
    FM_KEYOFF (FM_KEYOFF s m) m = FM_KEYOFF s m := by
  have kA : s.key &&& m &&& m = s.key &&& m := by rw [Nat.and_assoc, Nat.and_self]
  unfold FM_KEYOFF
  by_cases h1 : s.key ≠ 0
  · rw [if_pos h1]
    dsimp only
    by_cases h2 : s.key &&& m = 0
    · rw [if_pos h2]
      by_cases h3 : s.state > EG_REL
      · rw [if_pos h3]
        dsimp only
        rw [if_neg (not_ne_iff.mpr h2)]
      · rw [if_neg h3]
        dsimp only
        rw [if_neg (not_ne_iff.mpr h2)]
    · rw [if_neg h2]
      dsimp only
      rw [if_pos h2, kA, if_neg h2]
  · rw [if_neg h1, if_neg h1]

theorem set_ksl_tl_idem (c : FM_OPL) (slot v : Nat) (hs : slot ≤ 17) :
    set_ksl_tl (set_ksl_tl c slot v) slot v = set_ksl_tl c slot v := by
  have hi : slot / 2 ≤ 8 := by omega
  have hj : slot &&& 1 ≤ 1 := by
    have h := Nat.and_le_right (n := slot) (m := 1); omega
  refine setChSlot_idem (slot / 2) (slot &&& 1) hi hj
    (fun ch s =>
      let ksl := v >>> 6
      let t := { s with ksl := if ksl ≠ 0 then 3 - ksl else 31,
                        TL := (v &&& 0x3f) <<< 2 }
      { t with TLL := t.TL + (ch.ksl_base >>> t.ksl) }) c ?_
  intro ch s
  dsimp only
  rw [setSlot_ksl_base _ _ _ hj]

theorem set_ar_dr_idem (c : FM_OPL) (slot v : Nat) (hs : slot ≤ 17) :
    set_ar_dr (set_ar_dr c slot v) slot v = set_ar_dr c slot v := by
  have hi : slot / 2 ≤ 8 := by omega
  have hj : slot &&& 1 ≤ 1 := by
    have h := Nat.and_le_right (n := slot) (m := 1); omega
  refine setChSlot_idem (slot / 2) (slot &&& 1) hi hj
    (fun _ s =>
      let t := { s with ar := if v >>> 4 ≠ 0 then 16 + ((v >>> 4) <<< 2) else 0 }
      let t :=
        if t.ar + t.ksr < 16 + 62 then
          { t with eg_sh_ar := eg_rate_shift_at (t.ar + t.ksr),
                   eg_sel_ar := eg_rate_select_at (t.ar + t.ksr) }
        else
          { t with eg_sh_ar := 0, eg_sel_ar := 13 * RATE_STEPS }
      let t := { t with dr := if v &&& 0x0f ≠ 0 then 16 + ((v &&& 0x0f) <<< 2) else 0 }
      { t with eg_sh_dr := eg_rate_shift_at (t.dr + t.ksr),
               eg_sel_dr := eg_rate_select_at (t.dr + t.ksr) }) c ?_
  intro ch s
  dsimp only
  by_cases h2 : (if v >>> 4 ≠ 0 then 16 + ((v >>> 4) <<< 2) else 0) + s.ksr < 16 + 62
  · rw [if_pos h2]
    dsimp only
    rw [if_pos h2]
  · rw [if_neg h2]
    dsimp only
    rw [if_neg h2]

theorem set_sl_rr_idem (c : FM_OPL) (slot v : Nat) (hs : slot ≤ 17) :
    set_sl_rr (set_sl_rr c slot v) slot v = set_sl_rr c slot v := by
  have hi : slot / 2 ≤ 8 := by omega
  have hj : slot &&& 1 ≤ 1 := by
    have h := Nat.and_le_right (n := slot) (m := 1); omega
  refine setChSlot_idem (slot / 2) (slot &&& 1) hi hj
    (fun _ s =>
      let t := { s with sl := sl_tab_at (v >>> 4) <<< 1 }
      let t := { t with rr := if v &&& 0x0f ≠ 0 then 16 + ((v &&& 0x0f) <<< 2) else 0 }
      { t with eg_sh_rr := eg_rate_shift_at (t.rr + t.ksr),
               eg_sel_rr := eg_rate_select_at (t.rr + t.ksr) }) c ?_
  intro ch s
  rfl

theorem writeFeedbackCon_idem (c : FM_OPL) (r v : Nat) :
    writeFeedbackCon (writeFeedbackCon c r v) r v = writeFeedbackCon c r v := by
  unfold writeFeedbackCon
  by_cases h1 : r &&& 0x0f > 8
  · rw [if_pos h1, if_pos h1]
  · rw [if_neg h1, if_neg h1]
    have hi : r &&& 0x0f ≤ 8 := by omega
    dsimp only
    rw [getCh_setCh_self _ _ _ hi, getSlot_setSlot_self _ _ _ (Nat.zero_le 1),
        setSlot_setSlot _ _ _ _ (Nat.zero_le 1), setCh_setCh _ _ _ _ hi]

theorem writeWaveformSel_idem (c : FM_OPL) (r v : Nat) :
    writeWaveformSel (writeWaveformSel c r v) r v = writeWaveformSel c r v := by
  unfold writeWaveformSel
  by_cases h1 : c.wavesel ≠ 0
  · rw [if_pos h1]
    by_cases h2 : slot_array_at (r &&& 0x1f) < 0
    · rw [if_pos h2, if_pos h1, if_pos h2]
    · rw [if_neg h2]
      dsimp only
      have h17 : (slot_array_at (r &&& 0x1f)).toNat ≤ 17 := by
        have h := slot_array_at_le (r &&& 0x1f); omega
      have hi : (slot_array_at (r &&& 0x1f)).toNat / 2 ≤ 8 := by omega
      have hj : (slot_array_at (r &&& 0x1f)).toNat &&& 1 ≤ 1 := by
        have h := Nat.and_le_right (n := (slot_array_at (r &&& 0x1f)).toNat) (m := 1)
        omega
      rw [setCh_wavesel, if_pos h1, if_neg h2]
      rw [getCh_setCh_self _ _ _ hi, getSlot_setSlot_self _ _ _ hj,
          setSlot_setSlot _ _ _ _ hj, setCh_setCh _ _ _ _ hi]
  · rw [if_neg h1, if_neg h1]

theorem or_self_of_and (a k : Nat) (h : a &&& k = k) : a ||| k = a := by
  apply Nat.eq_of_testBit_eq
  intro i
  have hb := congrArg (fun n => n.testBit i) h
  simp only [Nat.testBit_and] at hb
  simp only [Nat.testBit_or]
  cases hak : a.testBit i <;> cases hkk : k.testBit i <;> simp_all

theorem or_and_self (a k : Nat) : (a ||| k) &&& k = k := by
  apply Nat.eq_of_testBit_eq
  intro i
  simp only [Nat.testBit_and, Nat.testBit_or]
  cases a.testBit i <;> cases k.testBit i <;> rfl

theorem and_and_self_r (a m : Nat) : a &&& m &&& m = a &&& m := by
  rw [Nat.and_assoc, Nat.and_self]

theorem or_or_self_r (a k : Nat) : a ||| k ||| k = a ||| k := by
  rw [Nat.or_assoc, Nat.or_self]

theorem FM_KEYON_key (s : OPL_SLOT) (k : Nat) :
    (FM_KEYON s k).key = s.key ||| k := by
  unfold FM_KEYON; split_ifs <;> rfl

theorem FM_KEYOFF_key (s : OPL_SLOT) (m : Nat) :
    (FM_KEYOFF s m).key = s.key &&& m := by
  unfold FM_KEYOFF
  dsimp only
  split_ifs with h1 h2 h3
  · rfl
  · rfl
  · rfl
  · rw [not_ne_iff.mp h1, Nat.zero_and]

theorem FM_KEYON_fix (s : OPL_SLOT) (k : Nat) (h : s.key &&& k = k)
    (hk : k ≠ 0) : FM_KEYON s k = s := by
  have hkey : ¬ s.key = 0 := by
    intro h0
    rw [h0, Nat.zero_and] at h
    exact hk h.symm
  unfold FM_KEYON
  rw [if_neg hkey]
  exact slot_eta_key _ (or_self_of_and s.key k h).symm

theorem FM_KEYOFF_fix (s : OPL_SLOT) (m : Nat) (h : s.key &&& m = s.key) :
    FM_KEYOFF s m = s := by
  unfold FM_KEYOFF
  by_cases h1 : s.key ≠ 0
  · rw [if_pos h1]
    dsimp only
    rw [h, if_neg h1]
  · rw [if_neg h1]

theorem and_or_low (x v : Nat) (hv : v < 256) :
    ((x &&& 0x1f00) ||| v) &&& 0x1f00 = x &&& 0x1f00 := by
  apply Nat.eq_of_testBit_eq
  intro i
  simp only [Nat.testBit_and, Nat.testBit_or]
  by_cases hi : i < 8
  · have hm : (0x1f00 : Nat).testBit i = false := by interval_cases i <;> decide
    rw [hm, Bool.and_false, Bool.and_false]
  · have hv8 : v.testBit i = false := Nat.testBit_lt_two_pow (by
      have h8 : (2:Nat) ^ 8 ≤ 2 ^ i := Nat.pow_le_pow_right (by norm_num) (by omega)
      norm_num at h8
      omega)
    rw [hv8, Bool.or_false, Bool.and_assoc, Bool.and_self]

theorem or_and_high (x v : Nat) :
    (((v &&& 0x1f) <<< 8) ||| (x &&& 0xff)) &&& 0xff = x &&& 0xff := by
  apply Nat.eq_of_testBit_eq
  intro i
  simp only [Nat.testBit_and, Nat.testBit_or, Nat.testBit_shiftLeft]
  by_cases hi : i < 8
  · have hge : decide (i ≥ 8) = false := decide_eq_false (by omega)
    rw [hge, Bool.false_and, Bool.false_or, Bool.and_assoc, Bool.and_self]
  · have hf : (0xff : Nat).testBit i = false := Nat.testBit_lt_two_pow (by
      have h8 : (2:Nat) ^ 8 ≤ 2 ^ i := Nat.pow_le_pow_right (by norm_num) (by omega)
      norm_num at h8
      omega)
    rw [hf, Bool.and_false, Bool.and_false]

theorem FM_KEYON_fix1 (s : OPL_SLOT) (h : s.key &&& 1 = 1) : FM_KEYON s 1 = s :=
  FM_KEYON_fix s 1 h (by decide)

theorem FM_KEYON_fix2 (s : OPL_SLOT) (h : s.key &&& 2 = 2) : FM_KEYON s 2 = s :=
  FM_KEYON_fix s 2 h (by decide)

theorem writeRhythm_idem (c : FM_OPL) (v : Nat) :
    writeRhythm (writeRhythm c v) v = writeRhythm c v := by
  unfold writeRhythm
  dsimp only [FM_OPL.getCh, FM_OPL.setCh, OPL_CH.getSlot, OPL_CH.setSlot]
  by_cases hR : (v &&& 0x3f) &&& 0x20 ≠ 0
  · simp only [hR, ne_eq, not_false_eq_true, ite_true]
    congr 1
    · rcases ne_or_eq (v &&& 0x10) 0 with h10 | h10 <;>
        simp only [h10, ne_eq, not_false_eq_true, eq_self_iff_true, not_true,
                   ite_true, ite_false, FM_KEYON_key, or_and_self, FM_KEYON_fix2,
                   FM_KEYOFF_key, and_and_self_r, FM_KEYOFF_fix]
    · rcases ne_or_eq (v &&& 0x01) 0 with h01 | h01 <;>
        rcases ne_or_eq (v &&& 0x08) 0 with h08 | h08 <;>
        simp only [h01, h08, ne_eq, not_false_eq_true, eq_self_iff_true, not_true,
                   ite_true, ite_false, FM_KEYON_key, or_and_self, FM_KEYON_fix2,
                   FM_KEYOFF_key, and_and_self_r, FM_KEYOFF_fix]
    · rcases ne_or_eq (v &&& 0x04) 0 with h04 | h04 <;>
        rcases ne_or_eq (v &&& 0x02) 0 with h02 | h02 <;>
        simp only [h04, h02, ne_eq, not_false_eq_true, eq_self_iff_true, not_true,
                   ite_true, ite_false, FM_KEYON_key, or_and_self, FM_KEYON_fix2,
                   FM_KEYOFF_key, and_and_self_r, FM_KEYOFF_fix]
  · simp only [not_ne_iff.mp hR, ne_eq, eq_self_iff_true, not_true, ite_false,
               FM_KEYOFF_key, and_and_self_r, FM_KEYOFF_fix]

theorem setCh_mode (c : FM_OPL) (i : Nat) (ch : OPL_CH) :
    (c.setCh i ch).mode = c.mode := by
  unfold FM_OPL.setCh; split <;> rfl

theorem setCh_fn_tab (c : FM_OPL) (i : Nat) (ch : OPL_CH) :
    (c.setCh i ch).fn_tab = c.fn_tab := by
  unfold FM_OPL.setCh; split <;> rfl

set_option maxHeartbeats 2000000 in
theorem writeFnum_idem (c : FM_OPL) (r v : Nat) (hv : v < 256) :
    writeFnum (writeFnum c r v) r v = writeFnum c r v := by
  unfold writeFnum
  by_cases h0 : r &&& 0x0f > 8
  · rw [if_pos h0, if_pos h0]
  · rw [if_neg h0, if_neg h0]
    have hi : r &&& 0x0f ≤ 8 := by omega
    have hg : ∀ ch, (FM_OPL.setCh c (r &&& 0x0f) ch).getCh (r &&& 0x0f) = ch :=
      fun ch => getCh_setCh_self c (r &&& 0x0f) ch hi
    have hss : ∀ ch ch',
        (FM_OPL.setCh c (r &&& 0x0f) ch).setCh (r &&& 0x0f) ch' =
          c.setCh (r &&& 0x0f) ch' :=
      fun ch ch' => setCh_setCh c (r &&& 0x0f) ch ch' hi
    have hlow : ∀ x, ((x &&& 0x1f00) ||| v) &&& 0x1f00 = x &&& 0x1f00 :=
      fun x => and_or_low x v hv
    dsimp only [OPL_CH.getSlot, OPL_CH.setSlot]
    simp only [hg, hss, setCh_mode, setCh_fn_tab]
    refine congrArg (FM_OPL.setCh c (r &&& 0x0f)) ?_
    by_cases h10 : r &&& 0x10 = 0
    · by_cases hbf : (c.getCh (r &&& 0x0f)).block_fnum ≠
          ((c.getCh (r &&& 0x0f)).block_fnum &&& 0x1f00) ||| v
      · simp only [h10, hbf, ne_eq, not_false_eq_true, eq_self_iff_true, not_true,
                   ite_true, ite_false, hlow, CALC_FCSLOT_key, FM_KEYON_key,
                   FM_KEYOFF_key, or_and_self, and_and_self_r, FM_KEYON_fix1,
                   FM_KEYOFF_fix]
      · simp only [h10, (not_ne_iff.mp hbf).symm, ne_eq, not_false_eq_true,
                   eq_self_iff_true, not_true, ite_true, ite_false,
                   CALC_FCSLOT_key, FM_KEYON_key, FM_KEYOFF_key, or_and_self,
                   and_and_self_r, FM_KEYON_fix1, FM_KEYOFF_fix]
    · by_cases hbf : (c.getCh (r &&& 0x0f)).block_fnum ≠
          ((v &&& 0x1f) <<< 8) ||| ((c.getCh (r &&& 0x0f)).block_fnum &&& 0xff)
      · by_cases hk : v &&& 0x20 ≠ 0 <;>
          simp only [h10, hk, hbf, ne_eq, not_false_eq_true, eq_self_iff_true,
                     not_true, ite_true, ite_false, or_and_high,
                     CALC_FCSLOT_key, FM_KEYON_key, FM_KEYOFF_key, or_and_self,
                     and_and_self_r, FM_KEYON_fix1, FM_KEYOFF_fix]
      · by_cases hk : v &&& 0x20 ≠ 0 <;>
          simp only [h10, hk, (not_ne_iff.mp hbf).symm, ne_eq, not_false_eq_true,
                     eq_self_iff_true, not_true, ite_true, ite_false,
                     CALC_FCSLOT_key, FM_KEYON_key, FM_KEYOFF_key, or_and_self,
                     and_and_self_r, FM_KEYON_fix1, FM_KEYOFF_fix]

/-- C9: the register decode is idempotent — for every chip state and every
(address, value) pair, `OPLWriteReg` applied twice in succession yields
exactly the chip state of a single application. -/
theorem c9_write_idempotent (c : FM_OPL) (r v : Nat) :
    OPLWriteReg (OPLWriteReg c r v) r v = OPLWriteReg c r v := by
  have hr := and_ff_lt r
  have hv : v &&& 0xff < 256 := and_ff_lt v
  have hsn : (slot_array_at (r &&& 0x1f)).toNat ≤ 17 := by
    have h := slot_array_at_le (r &&& 0x1f); omega
  rcases dispatch_cases (r &&& 0xff) hr with hq0 | hq2 | hq4 | hq6 | hq8 | hqa | hqc | hqe
  · rw [OPLWriteReg_ctl c r v hq0, OPLWriteReg_ctl _ r v hq0]
    exact writeControl_idem c _ _
  · rw [OPLWriteReg_op20 c r v hq2]
    by_cases hs : slot_array_at (r &&& 0x1f) < 0
    · rw [if_pos hs, OPLWriteReg_op20 c r v hq2, if_pos hs]
    · rw [if_neg hs, OPLWriteReg_op20 _ r v hq2, if_neg hs]
      exact set_mul_idem c _ _ hsn
  · rw [OPLWriteReg_op40 c r v hq4]
    by_cases hs : slot_array_at (r &&& 0x1f) < 0
    · rw [if_pos hs, OPLWriteReg_op40 c r v hq4, if_pos hs]
    · rw [if_neg hs, OPLWriteReg_op40 _ r v hq4, if_neg hs]
      exact set_ksl_tl_idem c _ _ hsn
  · rw [OPLWriteReg_op60 c r v hq6]
    by_cases hs : slot_array_at (r &&& 0x1f) < 0
    · rw [if_pos hs, OPLWriteReg_op60 c r v hq6, if_pos hs]
    · rw [if_neg hs, OPLWriteReg_op60 _ r v hq6, if_neg hs]
      exact set_ar_dr_idem c _ _ hsn
  · rw [OPLWriteReg_op80 c r v hq8]
    by_cases hs : slot_array_at (r &&& 0x1f) < 0
    · rw [if_pos hs, OPLWriteReg_op80 c r v hq8, if_pos hs]
    · rw [if_neg hs, OPLWriteReg_op80 _ r v hq8, if_neg hs]
      exact set_sl_rr_idem c _ _ hsn
  · rw [OPLWriteReg_a0 c r v hqa]
    by_cases hbd : r &&& 0xff = 0xbd
    · rw [if_pos hbd, OPLWriteReg_a0 _ r v hqa, if_pos hbd]
      exact writeRhythm_idem c _
    · rw [if_neg hbd, OPLWriteReg_a0 _ r v hqa, if_neg hbd]
      exact writeFnum_idem c _ _ hv
  · rw [OPLWriteReg_c0 c r v hqc, OPLWriteReg_c0 _ r v hqc]
    exact writeFeedbackCon_idem c _ _
  · rw [OPLWriteReg_e0 c r v hqe, OPLWriteReg_e0 _ r v hqe]
    exact writeWaveformSel_idem c _ _

/-! ## Rhythm-register characterization and reset tracking (C3) -/

theorem setCh_rhythm (c : FM_OPL) (i : Nat) (ch : OPL_CH) :
    (c.setCh i ch).rhythm = c.rhythm := by
  unfold FM_OPL.setCh; split <;> rfl

theorem set_mul_rhythm (c : FM_OPL) (slot v : Nat) :
    (set_mul c slot v).rhythm = c.rhythm := by
  simp [set_mul, setCh_rhythm]

theorem set_ksl_tl_rhythm (c : FM_OPL) (slot v : Nat) :
    (set_ksl_tl c slot v).rhythm = c.rhythm := by
  simp [set_ksl_tl, setCh_rhythm]

theorem set_ar_dr_rhythm (c : FM_OPL) (slot v : Nat) :
    (set_ar_dr c slot v).rhythm = c.rhythm := by
  simp [set_ar_dr, setCh_rhythm]

theorem set_sl_rr_rhythm (c : FM_OPL) (slot v : Nat) :
    (set_sl_rr c slot v).rhythm = c.rhythm := by
  simp [set_sl_rr, setCh_rhythm]

theorem writeRhythm_rhythm (c : FM_OPL) (v : Nat) :
    (writeRhythm c v).rhythm = v &&& 0x3f := by
  simp [writeRhythm, setCh_rhythm, apply_ite FM_OPL.rhythm]

theorem writeFnum_rhythm (c : FM_OPL) (r v : Nat) :
    (writeFnum c r v).rhythm = c.rhythm := by
  simp [writeFnum, setCh_rhythm, apply_ite FM_OPL.rhythm]

theorem writeControl_rhythm (c : FM_OPL) (r v : Nat) :
    (writeControl c r v).rhythm = c.rhythm := by
  simp [writeControl, apply_ite FM_OPL.rhythm]

theorem writeFeedbackCon_rhythm (c : FM_OPL) (r v : Nat) :
    (writeFeedbackCon c r v).rhythm = c.rhythm := by
  simp [writeFeedbackCon, setCh_rhythm, apply_ite FM_OPL.rhythm]

theorem writeWaveformSel_rhythm (c : FM_OPL) (r v : Nat) :
    (writeWaveformSel c r v).rhythm = c.rhythm := by
  simp [writeWaveformSel, setCh_rhythm, apply_ite FM_OPL.rhythm]

/-- Register decode and the rhythm field: only a `0xbd` write changes it. -/
theorem OPLWriteReg_rhythm (c : FM_OPL) (r v : Nat) :
    (OPLWriteReg c r v).rhythm =
      if r &&& 0xff = 0xbd then (v &&& 0xff) &&& 0x3f else c.rhythm := by
  have hr := and_ff_lt r
  rcases dispatch_cases (r &&& 0xff) hr with hr0 | hr2 | hr4 | hr6 | hr8 | hra | hrc | hre
  · rw [if_neg (show ¬ r &&& 0xff = 0xbd from fun hbd => by
          rw [hbd] at hr0; exact absurd hr0 (by decide))]
    rw [OPLWriteReg_ctl c r v hr0, writeControl_rhythm]
  · rw [if_neg (show ¬ r &&& 0xff = 0xbd from fun hbd => by
          rw [hbd] at hr2; exact absurd hr2 (by decide))]
    rw [OPLWriteReg_op20 c r v hr2]
    by_cases hs : slot_array_at (r &&& 0x1f) < 0
    · rw [if_pos hs]
    · rw [if_neg hs, set_mul_rhythm]
  · rw [if_neg (show ¬ r &&& 0xff = 0xbd from fun hbd => by
          rw [hbd] at hr4; exact absurd hr4 (by decide))]
    rw [OPLWriteReg_op40 c r v hr4]
    by_cases hs : slot_array_at (r &&& 0x1f) < 0
    · rw [if_pos hs]
    · rw [if_neg hs, set_ksl_tl_rhythm]
  · rw [if_neg (show ¬ r &&& 0xff = 0xbd from fun hbd => by
          rw [hbd] at hr6; exact absurd hr6 (by decide))]
    rw [OPLWriteReg_op60 c r v hr6]
    by_cases hs : slot_array_at (r &&& 0x1f) < 0
    · rw [if_pos hs]
    · rw [if_neg hs, set_ar_dr_rhythm]
  · rw [if_neg (show ¬ r &&& 0xff = 0xbd from fun hbd => by
          rw [hbd] at hr8; exact absurd hr8 (by decide))]
    rw [OPLWriteReg_op80 c r v hr8]
    by_cases hs : slot_array_at (r &&& 0x1f) < 0
    · rw [if_pos hs]
    · rw [if_neg hs, set_sl_rr_rhythm]
  · rw [OPLWriteReg_a0 c r v hra]
    by_cases hbd : r &&& 0xff = 0xbd
    · rw [if_pos hbd, if_pos hbd, writeRhythm_rhythm]
    · rw [if_neg hbd, if_neg hbd, writeFnum_rhythm]
  · rw [if_neg (show ¬ r &&& 0xff = 0xbd from fun hbd => by
          rw [hbd] at hrc; exact absurd hrc (by decide))]
    rw [OPLWriteReg_c0 c r v hrc, writeFeedbackCon_rhythm]
  · rw [if_neg (show ¬ r &&& 0xff = 0xbd from fun hbd => by
          rw [hbd] at hre; exact absurd hre (by decide))]
    rw [OPLWriteReg_e0 c r v hre, writeWaveformSel_rhythm]

theorem setSlot_ksl_base_any (ch : OPL_CH) (j : Nat) (s : OPL_SLOT) :
    (ch.setSlot j s).ksl_base = ch.ksl_base := by
  unfold OPL_CH.setSlot; split <;> rfl

theorem slot_field_setChSlot {β : Type} (f : OPL_SLOT → β) (c : FM_OPL)
    (i' j' : Nat) (hi' : i' ≤ 8) (hj' : j' ≤ 1) (s' : OPL_SLOT)
    (hf : f s' = f ((c.getCh i').getSlot j'))
    (i : Nat) (hi : i ≤ 8) (j : Nat) (hj : j ≤ 1) :
    f (((c.setCh i' ((c.getCh i').setSlot j' s')).getCh i).getSlot j)
      = f ((c.getCh i).getSlot j) := by
  by_cases hii : i = i'
  · subst hii
    rw [getCh_setCh_self _ _ _ hi]
    by_cases hjj : j = j'
    · subst hjj
      rw [getSlot_setSlot_self _ _ _ hj]
      exact hf
    · rw [getSlot_setSlot_ne _ _ _ _ hj' hj (fun hh => hjj hh.symm)]
  · rw [getCh_setCh_ne _ _ _ _ hi' hi (fun hh => hii hh.symm)]

theorem getCh_upd_wavesel (c : FM_OPL) (x i : Nat) (hi : i ≤ 8) :
    ({ c with wavesel := x } : FM_OPL).getCh i = c.getCh i := by
  interval_cases i <;> rfl

theorem getCh_upd_mode (c : FM_OPL) (x i : Nat) (hi : i ≤ 8) :
    ({ c with mode := x } : FM_OPL).getCh i = c.getCh i := by
  interval_cases i <;> rfl

theorem getCh_upd_status (c : FM_OPL) (x i : Nat) (hi : i ≤ 8) :
    ({ c with status := x } : FM_OPL).getCh i = c.getCh i := by
  interval_cases i <;> rfl

theorem getCh_upd_head (c : FM_OPL) (a b d e i : Nat) (hi : i ≤ 8) :
    ({ c with eg_timer := a, eg_cnt := b, noise_rng := d, mode := e } :
      FM_OPL).getCh i = c.getCh i := by
  interval_cases i <;> rfl

theorem OPL_STATUS_RESET_getCh (c : FM_OPL) (flag i : Nat) (hi : i ≤ 8) :
    ((OPL_STATUS_RESET c flag).getCh i) = c.getCh i := by
  unfold OPL_STATUS_RESET
  dsimp only
  split_ifs <;> exact getCh_upd_status c _ i hi

theorem writeControl_getCh (c : FM_OPL) (r v i : Nat) (hi : i ≤ 8) :
    (writeControl c r v).getCh i = c.getCh i := by
  unfold writeControl
  split_ifs
  · exact getCh_upd_wavesel c _ i hi
  · rfl
  · exact getCh_upd_mode c _ i hi
  · rfl

theorem KB32_setChSlot (c : FM_OPL) (i' j' : Nat) (hi' : i' ≤ 8)
    (s' : OPL_SLOT) (h : KB32 c) :
    KB32 (c.setCh i' ((c.getCh i').setSlot j' s')) := by
  intro i hi
  by_cases hii : i = i'
  · subst hii
    rw [getCh_setCh_self _ _ _ hi, setSlot_ksl_base_any]
    exact h i hi
  · rw [getCh_setCh_ne _ _ _ _ hi' hi (fun hh => hii hh.symm)]
    exact h i hi

theorem writeRhythm_ksl_base (c : FM_OPL) (v i : Nat) (hi : i ≤ 8) :
    ((writeRhythm c v).getCh i).ksl_base = (c.getCh i).ksl_base := by
  unfold writeRhythm
  dsimp only
  by_cases hR : (v &&& 0x3f) &&& 0x20 ≠ 0
  · rw [if_pos hR]
    interval_cases i <;>
      simp only [FM_OPL.getCh, FM_OPL.setCh, OPL_CH.setSlot, OPL_CH.getSlot,
                 apply_ite OPL_CH.ksl_base, ite_self]
  · rw [if_neg hR]
    interval_cases i <;>
      simp only [FM_OPL.getCh, FM_OPL.setCh, OPL_CH.setSlot, OPL_CH.getSlot,
                 apply_ite OPL_CH.ksl_base, ite_self]

theorem KB32_writeFnum (c : FM_OPL) (r v : Nat) (h : KB32 c) :
    KB32 (writeFnum c r v) := by
  unfold writeFnum
  by_cases h0 : r &&& 0x0f > 8
  · rw [if_pos h0]; exact h
  · rw [if_neg h0]
    intro i hi
    by_cases hii : i = r &&& 0x0f
    · subst hii
      rw [getCh_setCh_self _ _ _ hi]
      dsimp only [OPL_CH.getSlot, OPL_CH.setSlot]
      split_ifs <;>
        first
          | exact h _ hi
          | exact lt_of_le_of_lt (ksl_tab_at_le _) (by norm_num)
    · rw [getCh_setCh_ne _ _ _ _ (by omega) hi (fun hh => hii hh.symm)]
      exact h i hi

theorem OPLWriteReg_KB32 (c : FM_OPL) (r v : Nat) (h : KB32 c) :
    KB32 (OPLWriteReg c r v) := by
  have hr := and_ff_lt r
  have hsn : (slot_array_at (r &&& 0x1f)).toNat ≤ 17 := by
    have hx := slot_array_at_le (r &&& 0x1f); omega
  rcases dispatch_cases (r &&& 0xff) hr with hk0 | hk2 | hk4 | hk6 | hk8 | hka | hkc | hke
  · rw [OPLWriteReg_ctl c r v hk0]
    intro i hi
    rw [writeControl_getCh _ _ _ _ hi]
    exact h i hi
  · rw [OPLWriteReg_op20 c r v hk2]
    by_cases hs : slot_array_at (r &&& 0x1f) < 0
    · rw [if_pos hs]; exact h
    · rw [if_neg hs]
      exact KB32_setChSlot c _ _ (by omega) _ h
  · rw [OPLWriteReg_op40 c r v hk4]
    by_cases hs : slot_array_at (r &&& 0x1f) < 0
    · rw [if_pos hs]; exact h
    · rw [if_neg hs]
      exact KB32_setChSlot c _ _ (by omega) _ h
  · rw [OPLWriteReg_op60 c r v hk6]
    by_cases hs : slot_array_at (r &&& 0x1f) < 0
    · rw [if_pos hs]; exact h
    · rw [if_neg hs]
      exact KB32_setChSlot c _ _ (by omega) _ h
  · rw [OPLWriteReg_op80 c r v hk8]
    by_cases hs : slot_array_at (r &&& 0x1f) < 0
    · rw [if_pos hs]; exact h
    · rw [if_neg hs]
      exact KB32_setChSlot c _ _ (by omega) _ h
  · rw [OPLWriteReg_a0 c r v hka]
    by_cases hbd : r &&& 0xff = 0xbd
    · rw [if_pos hbd]
      intro i hi
      rw [writeRhythm_ksl_base _ _ _ hi]
      exact h i hi
    · rw [if_neg hbd]
      exact KB32_writeFnum c _ _ h
  · rw [OPLWriteReg_c0 c r v hkc]
    unfold writeFeedbackCon
    by_cases h0 : (r &&& 0xff) &&& 0x0f > 8
    · rw [if_pos h0]; exact h
    · rw [if_neg h0]
      exact KB32_setChSlot c _ _ (by omega) _ h
  · rw [OPLWriteReg_e0 c r v hke]
    unfold writeWaveformSel
    by_cases h1 : c.wavesel ≠ 0
    · rw [if_pos h1]
      by_cases hs : slot_array_at ((r &&& 0xff) &&& 0x1f) < 0
      · rw [if_pos hs]; exact h
      · rw [if_neg hs]
        have hsn2 : (slot_array_at ((r &&& 0xff) &&& 0x1f)).toNat ≤ 17 := by
          have hx := slot_array_at_le ((r &&& 0xff) &&& 0x1f); omega
        exact KB32_setChSlot c _ _ (by omega) _ h
    · rw [if_neg h1]; exact h

/-! ## The feedback history is untouched by register writes (C3) -/

theorem FM_KEYON_op1Pair (s : OPL_SLOT) (k : Nat) :
    op1Pair (FM_KEYON s k) = op1Pair s := by
  unfold FM_KEYON op1Pair; split_ifs <;> rfl

theorem FM_KEYOFF_op1Pair (s : OPL_SLOT) (m : Nat) :
    op1Pair (FM_KEYOFF s m) = op1Pair s := by
  unfold FM_KEYOFF op1Pair
  dsimp only
  split_ifs <;> rfl

theorem CALC_FCSLOT_op1Pair (ch : OPL_CH) (s : OPL_SLOT) :
    op1Pair (CALC_FCSLOT ch s) = op1Pair s := by
  unfold CALC_FCSLOT op1Pair
  dsimp only
  split_ifs <;> rfl

theorem TLL_upd_op1Pair (s : OPL_SLOT) (x : Nat) :
    op1Pair { s with TLL := x } = op1Pair s := rfl

theorem writeRhythm_op1Pair (c : FM_OPL) (v i : Nat) (hi : i ≤ 8)
    (j : Nat) (hj : j ≤ 1) :
    op1Pair (((writeRhythm c v).getCh i).getSlot j)
      = op1Pair ((c.getCh i).getSlot j) := by
  unfold writeRhythm
  dsimp only
  by_cases hR : (v &&& 0x3f) &&& 0x20 ≠ 0
  · rw [if_pos hR]
    interval_cases i <;> interval_cases j <;>
      simp only [FM_OPL.getCh, FM_OPL.setCh, OPL_CH.setSlot, OPL_CH.getSlot,
                 apply_ite OPL_CH.SLOT0, apply_ite OPL_CH.SLOT1,
                 apply_ite op1Pair, FM_KEYON_op1Pair, FM_KEYOFF_op1Pair, ite_self]
  · rw [if_neg hR]
    interval_cases i <;> interval_cases j <;>
      simp only [FM_OPL.getCh, FM_OPL.setCh, OPL_CH.setSlot, OPL_CH.getSlot,
                 apply_ite OPL_CH.SLOT0, apply_ite OPL_CH.SLOT1,
                 apply_ite op1Pair, FM_KEYON_op1Pair, FM_KEYOFF_op1Pair, ite_self]

theorem writeFnum_op1Pair (c : FM_OPL) (r v i : Nat) (hi : i ≤ 8)
    (j : Nat) (hj : j ≤ 1) :
    op1Pair (((writeFnum c r v).getCh i).getSlot j)
      = op1Pair ((c.getCh i).getSlot j) := by
  unfold writeFnum
  by_cases h0 : r &&& 0x0f > 8
  · rw [if_pos h0]
  · rw [if_neg h0]
    by_cases hii : i = r &&& 0x0f
    · subst hii
      rw [getCh_setCh_self _ _ _ hi]
      dsimp only [OPL_CH.getSlot, OPL_CH.setSlot]
      interval_cases j <;>
        simp only [apply_ite OPL_CH.SLOT0, apply_ite OPL_CH.SLOT1,
                   apply_ite op1Pair, FM_KEYON_op1Pair, FM_KEYOFF_op1Pair,
                   CALC_FCSLOT_op1Pair, TLL_upd_op1Pair, ite_self]
    · rw [getCh_setCh_ne _ _ _ _ (by omega) hi (fun hh => hii hh.symm)]

theorem OPLWriteReg_op1Pair (c : FM_OPL) (r v : Nat) (i : Nat) (hi : i ≤ 8)
    (j : Nat) (hj : j ≤ 1) :
    op1Pair (((OPLWriteReg c r v).getCh i).getSlot j)
      = op1Pair ((c.getCh i).getSlot j) := by
  have hr := and_ff_lt r
  have hsn : (slot_array_at (r &&& 0x1f)).toNat ≤ 17 := by
    have hx := slot_array_at_le (r &&& 0x1f); omega
  have hj2 : ∀ t : Nat, t &&& 1 ≤ 1 := fun t => by
    have hx := Nat.and_le_right (n := t) (m := 1); omega
  rcases dispatch_cases (r &&& 0xff) hr with hp0 | hp2 | hp4 | hp6 | hp8 | hpa | hpc | hpe
  · rw [OPLWriteReg_ctl c r v hp0, writeControl_getCh _ _ _ _ hi]
  · rw [OPLWriteReg_op20 c r v hp2]
    by_cases hs : slot_array_at (r &&& 0x1f) < 0
    · rw [if_pos hs]
    · rw [if_neg hs]
      refine slot_field_setChSlot op1Pair c _ _ (by omega) (hj2 _) _ ?_ i hi j hj
      exact CALC_FCSLOT_op1Pair _ _
  · rw [OPLWriteReg_op40 c r v hp4]
    by_cases hs : slot_array_at (r &&& 0x1f) < 0
    · rw [if_pos hs]
    · rw [if_neg hs]
      refine slot_field_setChSlot op1Pair c _ _ (by omega) (hj2 _) _ ?_ i hi j hj
      rfl
  · rw [OPLWriteReg_op60 c r v hp6]
    by_cases hs : slot_array_at (r &&& 0x1f) < 0
    · rw [if_pos hs]
    · rw [if_neg hs]
      refine slot_field_setChSlot op1Pair c _ _ (by omega) (hj2 _) _ ?_ i hi j hj
      unfold op1Pair
      dsimp only
      split_ifs <;> rfl
  · rw [OPLWriteReg_op80 c r v hp8]
    by_cases hs : slot_array_at (r &&& 0x1f) < 0
    · rw [if_pos hs]
    · rw [if_neg hs]
      refine slot_field_setChSlot op1Pair c _ _ (by omega) (hj2 _) _ ?_ i hi j hj
      rfl
  · rw [OPLWriteReg_a0 c r v hpa]
    by_cases hbd : r &&& 0xff = 0xbd
    · rw [if_pos hbd]
      exact writeRhythm_op1Pair c _ i hi j hj
    · rw [if_neg hbd]
      exact writeFnum_op1Pair c _ _ i hi j hj
  · rw [OPLWriteReg_c0 c r v hpc]
    unfold writeFeedbackCon
    by_cases h0 : (r &&& 0xff) &&& 0x0f > 8
    · rw [if_pos h0]
    · rw [if_neg h0]
      refine slot_field_setChSlot op1Pair c _ _ (by omega) (Nat.zero_le 1) _ ?_ i hi j hj
      rfl
  · rw [OPLWriteReg_e0 c r v hpe]
    unfold writeWaveformSel
    by_cases h1 : c.wavesel ≠ 0
    · rw [if_pos h1]
      by_cases hs : slot_array_at ((r &&& 0xff) &&& 0x1f) < 0
      · rw [if_pos hs]
      · rw [if_neg hs]
        have hsn2 : (slot_array_at ((r &&& 0xff) &&& 0x1f)).toNat ≤ 17 := by
          have hx := slot_array_at_le ((r &&& 0xff) &&& 0x1f); omega
        refine slot_field_setChSlot op1Pair c _ _ (by omega) (hj2 _) _ ?_ i hi j hj
        rfl
    · rw [if_neg h1]

/-! ## Total-level and rhythm tracking through the reset register loop -/

theorem CALC_FCSLOT_TLL (ch : OPL_CH) (s : OPL_SLOT) :
    (CALC_FCSLOT ch s).TLL = s.TLL := by
  unfold CALC_FCSLOT; dsimp only; split_ifs <;> rfl

theorem slot_field_setChSlot_ne {β : Type} (f : OPL_SLOT → β) (c : FM_OPL)
    (i' j' : Nat) (hi' : i' ≤ 8) (hj' : j' ≤ 1) (s' : OPL_SLOT)
    (i : Nat) (hi : i ≤ 8) (j : Nat) (hj : j ≤ 1)
    (hne : ¬(i = i' ∧ j = j')) :
    f (((c.setCh i' ((c.getCh i').setSlot j' s')).getCh i).getSlot j)
      = f ((c.getCh i).getSlot j) := by
  by_cases hii : i = i'
  · subst hii
    rw [getCh_setCh_self _ _ _ hi,
        getSlot_setSlot_ne _ _ _ _ hj' hj (fun hh => hne ⟨rfl, hh.symm⟩)]
  · rw [getCh_setCh_ne _ _ _ _ hi' hi (fun hh => hii hh.symm)]

theorem set_ksl_tl0_TLL_self (c : FM_OPL) (s : Nat) (hs : s ≤ 17)
    (hK : (c.getCh (s / 2)).ksl_base < 4294967296) :
    (((set_ksl_tl c s 0).getCh (s / 2)).getSlot (s &&& 1)).TLL ≤ 1 := by
  have hi : s / 2 ≤ 8 := by omega
  have hj : s &&& 1 ≤ 1 := by
    have hx := Nat.and_le_right (n := s) (m := 1); omega
  unfold set_ksl_tl
  dsimp only
  rw [getCh_setCh_self _ _ _ hi, getSlot_setSlot_self _ _ _ hj]
  dsimp only
  rw [if_neg (show ¬(0:Nat) >>> 6 ≠ 0 from by decide)]
  rw [show ((0:Nat) &&& 0x3f) <<< 2 = 0 from rfl, Nat.zero_add,
      Nat.shiftRight_eq_div_pow]
  have h2 : (2:Nat) ^ 31 = 2147483648 := by norm_num
  rw [h2]
  omega

theorem write40_TLL (c : FM_OPL) (r : Nat) (hd : (r &&& 0xff) &&& 0xe0 = 0x40)
    (hK : KB32 c) (i : Nat) (hi : i ≤ 8) (j : Nat) (hj : j ≤ 1) :
    (((OPLWriteReg c r 0).getCh i).getSlot j).TLL ≤ 1 ∨
      (((OPLWriteReg c r 0).getCh i).getSlot j).TLL
        = ((c.getCh i).getSlot j).TLL := by
  rw [OPLWriteReg_op40 c r 0 hd]
  by_cases hs : slot_array_at (r &&& 0x1f) < 0
  · rw [if_pos hs]; exact Or.inr rfl
  · rw [if_neg hs]
    have hsn : (slot_array_at (r &&& 0x1f)).toNat ≤ 17 := by
      have hx := slot_array_at_le (r &&& 0x1f); omega
    by_cases hmatch : i = (slot_array_at (r &&& 0x1f)).toNat / 2 ∧
        j = (slot_array_at (r &&& 0x1f)).toNat &&& 1
    · obtain ⟨h1, h2⟩ := hmatch
      subst h1; subst h2
      exact Or.inl (set_ksl_tl0_TLL_self c _ hsn (hK _ (by omega)))
    · right
      refine slot_field_setChSlot_ne OPL_SLOT.TLL c _ _ (by omega)
        (by have hx := Nat.and_le_right
              (n := (slot_array_at (r &&& 0x1f)).toNat) (m := 1); omega)
        _ i hi j hj hmatch

theorem fold40_TLL (l : List Nat)
    (hl : ∀ r ∈ l, (r &&& 0xff) &&& 0xe0 = 0x40) :
    ∀ c : FM_OPL, KB32 c →
    (∀ i, i ≤ 8 → ∀ j, j ≤ 1 →
        ((c.getCh i).getSlot j).TLL ≤ 1 ∨
          ∃ r ∈ l, ¬ slot_array_at (r &&& 0x1f) < 0 ∧
            (slot_array_at (r &&& 0x1f)).toNat / 2 = i ∧
            (slot_array_at (r &&& 0x1f)).toNat &&& 1 = j) →
    ∀ i, i ≤ 8 → ∀ j, j ≤ 1 →
      (((l.foldl (fun ch r => OPLWriteReg ch r 0) c).getCh i).getSlot j).TLL
        ≤ 1 := by
  induction l with
  | nil =>
    intro c _ hcov i hi j hj
    rcases hcov i hi j hj with hg | ⟨r, hr, _⟩
    · exact hg
    · exact absurd hr (List.not_mem_nil r)
  | cons a l ih =>
    intro c hK hcov i hi j hj
    rw [List.foldl_cons]
    refine ih (fun r hr => hl r (List.mem_cons_of_mem a hr)) _
      (OPLWriteReg_KB32 c a 0 hK) ?_ i hi j hj
    intro i2 hi2 j2 hj2
    rcases write40_TLL c a (hl a (List.mem_cons_self a l)) hK i2 hi2 j2 hj2
      with hle | heq
    · exact Or.inl hle
    · rcases hcov i2 hi2 j2 hj2 with hg | ⟨r, hr, hvr⟩
      · exact Or.inl (heq ▸ hg)
      · rcases List.mem_cons.mp hr with rfl | hrl
        · left
          obtain ⟨hnlt, hdiv, hand⟩ := hvr
          subst hdiv; subst hand
          rw [OPLWriteReg_op40 c r 0 (hl r (List.mem_cons_self r l)),
              if_neg hnlt]
          exact set_ksl_tl0_TLL_self c _
            (by have hx := slot_array_at_le (r &&& 0x1f); omega)
            (hK _ (by have hx := slot_array_at_le (r &&& 0x1f); omega))
        · exact Or.inr ⟨r, hrl, hvr⟩

theorem fold20_TLL (l : List Nat)
    (hl : ∀ r ∈ l, (r &&& 0xff) &&& 0xe0 = 0x20) :
    ∀ c : FM_OPL, ∀ i, i ≤ 8 → ∀ j, j ≤ 1 →
      (((l.foldl (fun ch r => OPLWriteReg ch r 0) c).getCh i).getSlot j).TLL
        = ((c.getCh i).getSlot j).TLL := by
  induction l with
  | nil => intro c i hi j hj; rfl
  | cons a l ih =>
    intro c i hi j hj
    rw [List.foldl_cons,
        ih (fun r hr => hl r (List.mem_cons_of_mem a hr)) _ i hi j hj]
    rw [OPLWriteReg_op20 c a 0 (hl a (List.mem_cons_self a l))]
    by_cases hs : slot_array_at (a &&& 0x1f) < 0
    · rw [if_pos hs]
    · rw [if_neg hs]
      refine slot_field_setChSlot OPL_SLOT.TLL c _ _
        (by have hx := slot_array_at_le (a &&& 0x1f); omega)
        (by have hx := Nat.and_le_right
              (n := (slot_array_at (a &&& 0x1f)).toNat) (m := 1); omega)
        _ ?_ i hi j hj
      exact CALC_FCSLOT_TLL _ _

theorem foldl_op1Pair (l : List Nat) :
    ∀ c : FM_OPL, ∀ i, i ≤ 8 → ∀ j, j ≤ 1 →
      op1Pair (((l.foldl (fun ch r => OPLWriteReg ch r 0) c).getCh i).getSlot j)
        = op1Pair ((c.getCh i).getSlot j) := by
  induction l with
  | nil => intro c i hi j hj; rfl
  | cons a l ih =>
    intro c i hi j hj
    rw [List.foldl_cons, ih _ i hi j hj, OPLWriteReg_op1Pair _ _ _ i hi j hj]

theorem foldl_KB32 (l : List Nat) :
    ∀ c : FM_OPL, KB32 c →
      KB32 (l.foldl (fun ch r => OPLWriteReg ch r 0) c) := by
  induction l with
  | nil => exact fun c h => h
  | cons a l ih =>
    intro c h
    rw [List.foldl_cons]
    exact ih _ (OPLWriteReg_KB32 c a 0 h)

theorem foldl_rhythm_pres (l : List Nat)
    (hl : ∀ r ∈ l, r &&& 0xff ≠ 0xbd) :
    ∀ c : FM_OPL,
      (l.foldl (fun ch r => OPLWriteReg ch r 0) c).rhythm = c.rhythm := by
  induction l with
  | nil => intro c; rfl
  | cons a l ih =>
    intro c
    rw [List.foldl_cons, ih (fun r hr => hl r (List.mem_cons_of_mem a hr)),
        OPLWriteReg_rhythm, if_neg (hl a (List.mem_cons_self a l))]

set_option maxRecDepth 8000 in
theorem resetRegs_eq_B : resetRegs = resetRegsB1 ++ 0xbd :: resetRegsB2 := by
  decide

set_option maxRecDepth 8000 in
theorem resetRegs_eq_seg :
    resetRegs = resetRegsHigh ++ resetRegs40 ++ resetRegs20 := by
  decide

set_option maxRecDepth 8000 in
theorem resetRegsB2_ne_bd : ∀ r ∈ resetRegsB2, r &&& 0xff ≠ 0xbd := by decide

set_option maxRecDepth 8000 in
theorem resetRegs40_block : ∀ r ∈ resetRegs40, (r &&& 0xff) &&& 0xe0 = 0x40 := by
  decide

set_option maxRecDepth 8000 in
theorem resetRegs20_block : ∀ r ∈ resetRegs20, (r &&& 0xff) &&& 0xe0 = 0x20 := by
  decide

set_option maxRecDepth 8000 in
theorem resetRegs40_covers : ∀ i, i ≤ 8 → ∀ j, j ≤ 1 →
    ∃ r ∈ resetRegs40, ¬ slot_array_at (r &&& 0x1f) < 0 ∧
      (slot_array_at (r &&& 0x1f)).toNat / 2 = i ∧
      (slot_array_at (r &&& 0x1f)).toNat &&& 1 = j := by
  decide

/-! ## A silent chip generates only zero samples (C3) -/

set_option maxRecDepth 4000 in
theorem lfo_am_table_at_le (i : Nat) : lfo_am_table_at i ≤ 26 := by
  by_cases h : i < 210
  · exact (by decide : ∀ j < 210, lfo_am_table_at j ≤ 26) i h
  · unfold lfo_am_table_at
    rw [List.getD_eq_getElem?_getD, List.getElem?_eq_none
      (by rw [show lfo_am_table.length = 210 from rfl]; omega)]
    norm_num

theorem egFire_silent (cnt : Nat) (s : OPL_SLOT) (h : s.state = EG_OFF) :
    egFire cnt s = s := by
  unfold egFire
  rw [h]
  rfl

theorem phaseStep_silent (f : Nat → Nat) (pm bf : Nat) (s : OPL_SLOT)
    (h : SilentSlot s) : SilentSlot (phaseStep f pm bf s) := by
  unfold phaseStep SilentSlot
  dsimp only
  split_ifs <;> exact h

theorem egRun_silent_slots (k : Nat) :
    ∀ c : FM_OPL,
      (∀ i, i ≤ 8 → ∀ j, j ≤ 1 → SilentSlot ((c.getCh i).getSlot j)) →
      ∀ i, i ≤ 8 → ∀ j, j ≤ 1 →
        SilentSlot (((egRun k c).getCh i).getSlot j) := by
  induction k with
  | zero => exact fun c h => h
  | succ m ih =>
    intro c h
    apply ih
    intro i hi j hj
    rw [getCh_mapChs _ _ _ hi, getSlot_mapSlots _ _ _ hj]
    have hs : SilentSlot ((({ c with eg_cnt := u32 (c.eg_cnt + 1) } :
        FM_OPL).getCh i).getSlot j) := by
      rw [getCh_upd_eg_cnt _ _ _ hi]
      exact h i hi j hj
    rw [egFire_silent _ _ hs.1]
    exact hs

theorem advance_silent (pm : Nat) (c : FM_OPL) (h : Silent c) :
    Silent (advance pm c) := by
  constructor
  · rw [advance_rhythm]
    exact h.1
  · intro i hi j hj
    unfold advance
    dsimp only
    rw [getCh_upd_noise _ _ _ _ hi, getCh_mapChs _ _ _ hi,
        getSlot_mapSlots _ _ _ hj]
    apply phaseStep_silent
    refine egRun_silent_slots _ _ ?_ i hi j hj
    intro i2 hi2 j2 hj2
    rw [getCh_upd_eg_timer _ _ _ hi2]
    exact h.2 i2 hi2 j2 hj2

theorem slot_eta_op1 (s : OPL_SLOT) {x y : Int} (hx : s.op1_out0 = x)
    (hy : s.op1_out1 = y) : { s with op1_out0 := x, op1_out1 := y } = s := by
  subst hx hy; rfl

theorem OPL_CALC_CH_silent (T : WaveTables) (lfoAM : Nat) (ch : OPL_CH)
    (hAM : lfoAM ≤ 26) (h0 : SilentSlot ch.SLOT0) (h1 : SilentSlot ch.SLOT1) :
    OPL_CALC_CH T lfoAM ch = (ch, 0) := by
  obtain ⟨hst0, hv0, hT0, ho00, ho10⟩ := h0
  obtain ⟨hst1, hv1, hT1, ho01, ho11⟩ := h1
  have henv : ¬ volume_calc lfoAM ch.SLOT0 < ENV_QUIET := by
    unfold volume_calc u32 ENV_QUIET
    rw [hv0, show u32i MAX_ATT_INDEX = 511 from rfl]
    have ham := Nat.and_le_left (n := lfoAM) (m := ch.SLOT0.AMmask)
    omega
  have henv1 : ¬ volume_calc lfoAM ch.SLOT1 < ENV_QUIET := by
    unfold volume_calc u32 ENV_QUIET
    rw [hv1, show u32i MAX_ATT_INDEX = 511 from rfl]
    have ham := Nat.and_le_left (n := lfoAM) (m := ch.SLOT1.AMmask)
    omega
  unfold OPL_CALC_CH
  dsimp only
  rw [if_neg henv, if_neg henv1, ho10, ite_self, slot_eta_op1 ch.SLOT0 ho00 ho10]
  rfl

theorem getCh_upd_lfo_cnt (c : FM_OPL) (a b i : Nat) (hi : i ≤ 8) :
    ({ c with lfo_am_cnt := a, lfo_pm_cnt := b } : FM_OPL).getCh i
      = c.getCh i := by
  interval_cases i <;> rfl

theorem stepSample_silent (T : WaveTables) (c : FM_OPL) (h : Silent c) :
    (stepSample T false c).2 = 0 ∧ Silent (stepSample T false c).1 := by
  have hAM : ∀ d t : Nat,
      (if d ≠ 0 then lfo_am_table_at t else lfo_am_table_at t >>> 2) ≤ 26 := by
    intro d t
    split_ifs
    · exact lfo_am_table_at_le t
    · exact le_trans
        (by rw [Nat.shiftRight_eq_div_pow]; exact Nat.div_le_self _ _)
        (lfo_am_table_at_le t)
  have hs : ∀ i, i ≤ 8 → ∀ j, j ≤ 1 → SilentSlot ((c.getCh i).getSlot j) := h.2
  unfold stepSample
  dsimp only [advance_lfo]
  rw [OPL_CALC_CH_silent T _ c.ch0 (hAM _ _)
        (hs 0 (by norm_num) 0 (by norm_num)) (hs 0 (by norm_num) 1 (by norm_num)),
      OPL_CALC_CH_silent T _ c.ch1 (hAM _ _)
        (hs 1 (by norm_num) 0 (by norm_num)) (hs 1 (by norm_num) 1 (by norm_num)),
      OPL_CALC_CH_silent T _ c.ch2 (hAM _ _)
        (hs 2 (by norm_num) 0 (by norm_num)) (hs 2 (by norm_num) 1 (by norm_num)),
      OPL_CALC_CH_silent T _ c.ch3 (hAM _ _)
        (hs 3 (by norm_num) 0 (by norm_num)) (hs 3 (by norm_num) 1 (by norm_num)),
      OPL_CALC_CH_silent T _ c.ch4 (hAM _ _)
        (hs 4 (by norm_num) 0 (by norm_num)) (hs 4 (by norm_num) 1 (by norm_num)),
      OPL_CALC_CH_silent T _ c.ch5 (hAM _ _)
        (hs 5 (by norm_num) 0 (by norm_num)) (hs 5 (by norm_num) 1 (by norm_num))]
  dsimp only
  rw [if_neg (show ¬ (false = true) from by decide)]
  rw [OPL_CALC_CH_silent T _ c.ch6 (hAM _ _)
        (hs 6 (by norm_num) 0 (by norm_num)) (hs 6 (by norm_num) 1 (by norm_num)),
      OPL_CALC_CH_silent T _ c.ch7 (hAM _ _)
        (hs 7 (by norm_num) 0 (by norm_num)) (hs 7 (by norm_num) 1 (by norm_num)),
      OPL_CALC_CH_silent T _ c.ch8 (hAM _ _)
        (hs 8 (by norm_num) 0 (by norm_num)) (hs 8 (by norm_num) 1 (by norm_num))]
  dsimp only
  constructor
  · rfl
  · apply advance_silent
    constructor
    · exact h.1
    · intro i hi j hj
      rw [getCh_upd_lfo_cnt _ _ _ _ hi]
      exact h.2 i hi j hj

theorem updLoop_silent (T : WaveTables) (n : Nat) :
    ∀ c : FM_OPL, Silent c →
      (updLoop T false n c).2 = List.replicate n 0 := by
  induction n with
  | zero => intro c _; rfl
  | succ m ih =>
    intro c h
    have hstep := stepSample_silent T c h
    have hrec : (updLoop T false (m + 1) c).2 =
        storeSample (stepSample T false c).2 ::
          (updLoop T false m (stepSample T false c).1).2 := rfl
    rw [hrec, hstep.1, ih _ hstep.2, List.replicate_succ]
    rfl

theorem ym3812_silent (T : WaveTables) (c : FM_OPL) (n : Nat) (h : Silent c) :
    (ym3812_update_one T c n).2 = List.replicate n 0 := by
  unfold ym3812_update_one
  have hb : decide (c.rhythm &&& 0x20 ≠ 0) = false := by
    rw [h.1]
    decide
  rw [hb]
  exact updLoop_silent T n c h

theorem resetSlots_slot (c : FM_OPL) (i : Nat) (hi : i ≤ 8) (j : Nat)
    (hj : j ≤ 1) :
    ((resetSlots c).getCh i).getSlot j = { (c.getCh i).getSlot j with wavetable := 0, state := EG_OFF, volume := MAX_ATT_INDEX, connect1 := true } := by
  unfold resetSlots
  rw [getCh_mapChs _ _ _ hi, getSlot_mapSlots _ _ _ hj]

theorem resetSlots_rhythm (c : FM_OPL) : (resetSlots c).rhythm = c.rhythm := rfl

theorem OPLResetChip_silent (c : FM_OPL) (hK : KB32 c)
    (hfb : ∀ i, i ≤ 8 → ∀ j, j ≤ 1 → op1Pair ((c.getCh i).getSlot j) = (0, 0)) :
    Silent (OPLResetChip c) := by
  unfold OPLResetChip
  dsimp only
  set cPre := OPLWriteReg (OPLWriteReg (OPLWriteReg (OPLWriteReg
      (OPL_STATUS_RESET
        { c with eg_timer := 0, eg_cnt := 0, noise_rng := 1, mode := 0 } 0x7f)
      0x01 0) 0x02 0) 0x03 0) 0x04 0 with hcPre
  have hKpre : KB32 cPre := by
    rw [hcPre]
    apply OPLWriteReg_KB32
    apply OPLWriteReg_KB32
    apply OPLWriteReg_KB32
    apply OPLWriteReg_KB32
    intro i hi
    rw [OPL_STATUS_RESET_getCh _ _ _ hi, getCh_upd_head _ _ _ _ _ _ hi]
    exact hK i hi
  have hfbpre : ∀ i, i ≤ 8 → ∀ j, j ≤ 1 →
      op1Pair ((cPre.getCh i).getSlot j) = (0, 0) := by
    intro i hi j hj
    rw [hcPre, OPLWriteReg_op1Pair _ _ _ i hi j hj,
        OPLWriteReg_op1Pair _ _ _ i hi j hj,
        OPLWriteReg_op1Pair _ _ _ i hi j hj,
        OPLWriteReg_op1Pair _ _ _ i hi j hj,
        OPL_STATUS_RESET_getCh _ _ _ hi, getCh_upd_head _ _ _ _ _ _ hi]
    exact hfb i hi j hj
  set cF := resetRegs.foldl (fun ch r => OPLWriteReg ch r 0) cPre with hcF
  constructor
  · rw [resetSlots_rhythm, hcF, resetRegs_eq_B, List.foldl_append,
        List.foldl_cons, foldl_rhythm_pres resetRegsB2 resetRegsB2_ne_bd,
        OPLWriteReg_rhythm, if_pos (by decide : (0xbd : Nat) &&& 0xff = 0xbd)]
    decide
  · intro i hi j hj
    rw [resetSlots_slot _ _ hi _ hj]
    refine ⟨rfl, rfl, ?_, ?_, ?_⟩
    · show ((cF.getCh i).getSlot j).TLL ≤ 1
      rw [hcF, resetRegs_eq_seg, List.foldl_append, List.foldl_append,
          fold20_TLL resetRegs20 resetRegs20_block _ i hi j hj]
      refine fold40_TLL resetRegs40 resetRegs40_block _
        (foldl_KB32 _ _ hKpre) ?_ i hi j hj
      intro i2 hi2 j2 hj2
      exact Or.inr (resetRegs40_covers i2 hi2 j2 hj2)
    · show ((cF.getCh i).getSlot j).op1_out0 = 0
      have hp : op1Pair ((cF.getCh i).getSlot j) = (0, 0) := by
        rw [hcF, foldl_op1Pair resetRegs _ i hi j hj]
        exact hfbpre i hi j hj
      exact congrArg Prod.fst hp
    · show ((cF.getCh i).getSlot j).op1_out1 = 0
      have hp : op1Pair ((cF.getCh i).getSlot j) = (0, 0) := by
        rw [hcF, foldl_op1Pair resetRegs _ i hi j hj]
        exact hfbpre i hi j hj
      exact congrArg Prod.snd hp

/-- C3 (amended): after `OPLResetChip`, every operator of every chip is in
the OFF envelope state with attenuation 511.  If moreover the pre-reset
chip's per-channel `ksl_base` values are 32-bit representable and all
operator feedback buffers (`op1_out`) are empty, then generating any
number of samples from the freshly reset chip — no register write having
occurred since the reset — produces only zero samples.  (Without the
empty-feedback premise the first sample can leak the pre-reset feedback
history, since the reset routine never clears `op1_out`; see the
counterexample.) -/
theorem c3_reset_state_and_silence (c : FM_OPL) (T : WaveTables) (n : Nat)
    (hK : KB32 c)
    (hfb : ∀ i, i ≤ 8 → ∀ j, j ≤ 1 → op1Pair ((c.getCh i).getSlot j) = (0, 0)) :
    (∀ c' : FM_OPL, ∀ i, i ≤ 8 → ∀ j, j ≤ 1 →
        (((OPLResetChip c').getCh i).getSlot j).state = EG_OFF ∧
        (((OPLResetChip c').getCh i).getSlot j).volume = MAX_ATT_INDEX) ∧
    (ym3812_update_one T (OPLResetChip c) n).2 = List.replicate n 0 := by
  constructor
  · intro c' i hi j hj
    unfold OPLResetChip
    dsimp only
    rw [resetSlots_slot _ _ hi _ hj]
    exact ⟨rfl, rfl⟩
  · exact ym3812_silent T _ n (OPLResetChip_silent c hK hfb)

/-- C3 witness: the amended theorem applied to a freshly created chip,
two samples. -/
theorem c3_reset_state_and_silence_witness :
    (KB32 chip0 ∧
      (∀ i, i ≤ 8 → ∀ j, j ≤ 1 → op1Pair ((chip0.getCh i).getSlot j) = (0, 0))) ∧
    ((∀ c' : FM_OPL, ∀ i, i ≤ 8 → ∀ j, j ≤ 1 →
        (((OPLResetChip c').getCh i).getSlot j).state = EG_OFF ∧
        (((OPLResetChip c').getCh i).getSlot j).volume = MAX_ATT_INDEX) ∧
     (ym3812_update_one T0 (OPLResetChip chip0) 2).2 = List.replicate 2 0) :=
  ⟨⟨by unfold KB32; decide, by unfold op1Pair; decide⟩,
   c3_reset_state_and_silence chip0 T0 2 (by unfold KB32; decide)
     (by unfold op1Pair; decide)⟩

set_option maxRecDepth 10000 in
/-- C3 counterexample: resetting a chip whose channel-0 operator 1 still
holds feedback history `100`, then generating three samples with no
register write in between, yields `[100, 0, 0]`: the first sample leaks
the stale feedback value instead of being zero, because `OPLResetChip`
never clears the `op1_out` feedback buffers while it does point every
`connect1` at the output accumulator. -/
theorem c3_counterexample_stale_feedback :
    (ym3812_update_one T0 (OPLResetChip cBad) 3).2 = [100, 0, 0] := by
  decide
